import Mathlib

/-!
# Verification of the HOGBEN numeric core against its specification

Shallow embedding of hogben/simulate.py (class SimulateReflectivity) and of
the Fisher-information engine described by the specification (its
implementation, hogben/utils.py, is not part of the sources; only its test
suite is).

Modelling conventions:
* All floating-point values are modelled as exact rationals; every IEEE
  double is a rational number, so this is faithful up to rounding.
* The external numpy collaborators that produce irrational values
  (np.sin / np.radians, np.pi, np.sqrt, np.geomspace) are abstracted as
  fields of a numeric environment NumEnv.  np.geomspace(a, b, num) always
  returns exactly num points, which is recorded as a proof field.
* The numpy random generator is modelled as a deterministic stream of
  naturals: a Poisson draw for a zero mean is 0 (as in numpy); a draw for a
  non-zero mean takes the next stream element.  A vectorised rng.poisson(lam)
  call consumes one stream element per entry, and the generator state
  advances past the consumed elements.
* File access is modelled by an association list FileSystem (path to
  contents, os.path.isfile = membership) plus a total map bundled for the
  packaged direct-beam files (which always exist in the installed package).
* Python exceptions are modelled with Except: SimError.resourceNotFound is
  the FileNotFoundError raised by _incident_flux_data (the specification
  calls this error kind ResourceNotFoundError), and SimError.nonMonotonicBins
  is the ValueError that np.histogram raises when the supplied bin edges are
  not monotonically increasing.
-/

namespace HOGBEN

/-- A direct-beam spectrum: ordered pairs (wavelength, flux), one per row of
the two-column comma-delimited data file. -/
abbrev Spectrum := List (ℚ × ℚ)

/-- The filesystem visible to the simulator: maps existing file paths to
their parsed contents.  os.path.isfile p holds iff p is a key. -/
abbrev FileSystem := List (String × Spectrum)

/-- Errors of the simulator.  resourceNotFound models the FileNotFoundError
in _incident_flux_data (the error kind the specification names
ResourceNotFoundError); nonMonotonicBins models the ValueError raised by
np.histogram when the bin edges do not increase monotonically. -/
inductive SimError where
  | resourceNotFound
  | nonMonotonicBins
  deriving DecidableEq, Repr

instance {e a : Type} [DecidableEq e] [DecidableEq a] : DecidableEq (Except e a) :=
  fun x y =>
    match x, y with
    | .ok v, .ok w =>
      if h : v = w then .isTrue (by rw [h])
      else .isFalse (by intro hc; cases hc; exact h rfl)
    | .error v, .error w =>
      if h : v = w then .isTrue (by rw [h])
      else .isFalse (by intro hc; cases hc; exact h rfl)
    | .ok _, .error _ => .isFalse (by intro hc; cases hc)
    | .error _, .ok _ => .isFalse (by intro hc; cases hc)

/-- Abstract numeric environment: the numpy collaborators whose exact values
are irrational.  sinDeg a models np.sin(np.radians(a)); pi models np.pi;
sqrtQ models np.sqrt; geomspace a b n models np.geomspace(a, b, n).  numpy
geomspace always returns exactly num samples, recorded by geomspace_length. -/
structure NumEnv where
  pi : ℚ
  sinDeg : ℚ → ℚ
  sqrtQ : ℚ → ℚ
  geomspace : ℚ → ℚ → ℕ → List ℚ
  geomspace_length : ∀ a b n, (geomspace a b n).length = n

/-- State of the numpy random generator, modelled as an infinite stream of
natural numbers (the sequence of Poisson draws it would produce for non-zero
means). -/
def RngState : Type := ℕ → ℕ

/-- Advancing the generator past m consumed draws. -/
def rngShift (m : ℕ) (s : RngState) : RngState := fun i => s (i + m)

/-- One Poisson draw: numpy Generator.poisson returns 0 whenever the mean is
0, and otherwise a draw from the stream. -/
def poissonDraw (s : RngState) (i : ℕ) (lam : ℚ) : ℕ :=
  if lam = 0 then 0 else s i

/-- Vectorised rng.poisson(lam=lams): one draw per entry, consuming stream
positions in order. -/
def poissonDraws (s : RngState) (lams : List ℚ) : List ℕ :=
  List.zipWith (fun i lam => poissonDraw s i lam) (List.range lams.length) lams

/-- The seed argument accepted by _check_random_state: None (or np.random),
an integer, or an existing Generator / RandomState instance.  (Any other
value raises a ValueError; that branch is excluded by typing.) -/
inductive RngSeed where
  | noSeed
  | intSeed (n : ℕ)
  | genSeed (g : RngState)

/-- _check_random_state, given the global numpy RandomState singleton and
the (deterministic) np.random.default_rng seeding map: None resolves to the
singleton, an integer to a generator freshly-seeded with it, and an existing
generator to itself. -/
def check_random_state (globalRng : RngState) (default_rng : ℕ → RngState) :
    RngSeed → RngState
  | .noSeed => globalRng
  | .intSeed n => default_rng n
  | .genSeed g => g

/-- SimulateReflectivity.non_pol_instr_dict. -/
def non_pol_instr_dict : List (String × String) :=
  [("OFFSPEC", "OFFSPEC_non_polarised_old.dat"),
   ("SURF", "SURF_non_polarised.dat"),
   ("POLREF", "POLREF_non_polarised.dat"),
   ("INTER", "INTER_non_polarised.dat")]

/-- SimulateReflectivity.pol_instr_dict. -/
def pol_instr_dict : List (String × String) :=
  [("OFFSPEC", "OFFSPEC_polarised_old.dat"),
   ("POLREF", "POLREF_polarised.dat")]

/-- SimulateReflectivity._incident_flux_data:  pick the registry for the
polarisation flag; if the selector is a registry key load the bundled file,
otherwise treat it as a filesystem path (os.path.isfile + np.loadtxt), and
raise FileNotFoundError when neither resolves. -/
def incident_flux_data (fs : FileSystem) (bundled : String → Spectrum)
    (inst_or_path : String) (polarised : Bool) : Except SimError Spectrum :=
  let dict := if polarised then pol_instr_dict else non_pol_instr_dict
  match dict.lookup inst_or_path with
  | some fname => .ok (bundled fname)
  | none =>
    match fs.lookup inst_or_path with
    | some contents => .ok contents
    | none => .error .resourceNotFound

/-- Adjacent-nondecreasing test on bin edges: exactly the monotonicity
condition np.histogram enforces on an explicit bin-edge array (it raises a
ValueError otherwise). -/
def nondecreasing : List ℚ → Bool
  | [] => true
  | [_] => true
  | a :: b :: rest => decide (a ≤ b) && nondecreasing (b :: rest)

/-- Membership of a value in histogram bin i: numpy bins are half-open
[e_i, e_{i+1}) except the last bin, which is closed [e_{n-2}, e_{n-1}]. -/
def inBin (edges : List ℚ) (i : ℕ) (v : ℚ) : Bool :=
  decide (edges.getD i 0 ≤ v) &&
    (decide (v < edges.getD (i + 1) 0) ||
      (decide (i + 2 = edges.length) && decide (v ≤ edges.getD (i + 1) 0)))

/-- Weighted np.histogram(values, edges, weights): per bin, the sum of the
weights of the values falling in that bin. -/
def histogramWeighted (values weights edges : List ℚ) : List ℚ :=
  (List.range (edges.length - 1)).map (fun i =>
    (((values.zip weights).filter (fun vw => inBin edges i vw.1)).map Prod.snd).sum)

/-- SimulateReflectivity.reflectivity: empty result for empty input,
otherwise the external model evaluated pointwise. -/
def reflectivity (model : ℚ → ℚ) (q : List ℚ) : List ℚ :=
  if q.length = 0 then [] else q.map model

/-- The data of one _run_experiment call after the direct-beam spectrum has
been loaded: the numeric environment, the external reflectivity model, the
loaded spectrum, and the condition (angle, points, time) with the reference
angle_scale.  The named intermediate arrays of _run_experiment are defined
as projections of this structure. -/
structure Exp where
  env : NumEnv
  model : ℚ → ℚ
  data : Spectrum
  angle_scale : ℚ
  angle : ℚ
  points : ℕ
  time : ℚ

/-- scaled_flux = flux * (angle / angle_scale)**2. -/
def Exp.scaled_flux (e : Exp) : List ℚ :=
  (e.data.map Prod.snd).map (fun f => f * (e.angle / e.angle_scale) ^ 2)

/-- q = 4 * np.pi * np.sin(np.radians(angle)) / wavelengths. -/
def Exp.qVals (e : Exp) : List ℚ :=
  (e.data.map Prod.fst).map (fun w => 4 * e.env.pi * e.env.sinDeg e.angle / w)

/-- q_bin_edges = np.geomspace(q[-1], q[0], points + 1).  (getLastD / headD
model the q[-1] / q[0] indexing; an empty spectrum would be an IndexError
upstream and occurs in no claim.) -/
def Exp.q_bin_edges (e : Exp) : List ℚ :=
  e.env.geomspace (e.qVals.getLastD 0) (e.qVals.headD 0) (e.points + 1)

/-- flux_binned = np.histogram(q, q_bin_edges, weights=scaled_flux). -/
def Exp.flux_binned (e : Exp) : List ℚ :=
  histogramWeighted e.qVals e.scaled_flux e.q_bin_edges

/-- counts_incident = flux_binned * time. -/
def Exp.counts_incident (e : Exp) : List ℚ :=
  e.flux_binned.map (fun f => f * e.time)

/-- q_binned = bin centres (q_bin_edges[i] + q_bin_edges[i+1]) / 2. -/
def Exp.q_binned (e : Exp) : List ℚ :=
  (List.range e.points).map
    (fun i => (e.q_bin_edges.getD i 0 + e.q_bin_edges.getD (i + 1) 0) / 2)

/-- r_model = self.reflectivity(q_binned). -/
def Exp.r_model (e : Exp) : List ℚ :=
  reflectivity e.model e.q_binned

/-- The Poisson means r_model * counts_incident. -/
def Exp.lams (e : Exp) : List ℚ :=
  List.zipWith (fun r n => r * n) e.r_model e.counts_incident

/-- counts_reflected = rng.poisson(lam = r_model * counts_incident). -/
def Exp.counts_reflected (e : Exp) (rng : RngState) : List ℕ :=
  poissonDraws rng e.lams

/-- r_noisy = np.divide(counts_reflected, counts_incident, out=zeros,
where=counts_incident != 0): a zero-flux bin gets reflectivity exactly 0
instead of a division by zero. -/
def Exp.r_noisy (e : Exp) (rng : RngState) : List ℚ :=
  List.zipWith (fun (c : ℕ) (n : ℚ) => if n = 0 then 0 else (c : ℚ) / n)
    (e.counts_reflected rng) e.counts_incident

/-- r_error = np.divide(np.sqrt(counts_reflected), counts_incident,
out=zeros, where=counts_incident != 0). -/
def Exp.r_error (e : Exp) (rng : RngState) : List ℚ :=
  List.zipWith (fun (c : ℕ) (n : ℚ) => if n = 0 then 0 else e.env.sqrtQ (c : ℚ) / n)
    (e.counts_reflected rng) e.counts_incident

/-- SimulateReflectivity._run_experiment, for one measurement condition
(angle, points, time): load the spectrum, then compute the arrays of Exp and
return (q_binned, r_noisy, r_error, counts_incident) together with the
advanced generator state.  np.histogram raises a ValueError when the bin
edges are not nondecreasing, modelled by the nonMonotonicBins branch. -/
def run_experiment (env : NumEnv) (model : ℚ → ℚ) (fs : FileSystem)
    (bundled : String → Spectrum) (inst_or_path : String) (angle_scale : ℚ)
    (angle : ℚ) (points : ℕ) (time : ℚ) (polarised : Bool) (rng : RngState) :
    Except SimError ((List ℚ × List ℚ × List ℚ × List ℚ) × RngState) :=
  match incident_flux_data fs bundled inst_or_path polarised with
  | .error err => .error err
  | .ok data =>
    let e : Exp := ⟨env, model, data, angle_scale, angle, points, time⟩
    if nondecreasing e.q_bin_edges then
      .ok ((e.q_binned, e.r_noisy rng, e.r_error rng, e.counts_incident),
        rngShift e.lams.length rng)
    else
      .error .nonMonotonicBins

/-- The condition-loop of SimulateReflectivity.simulate: run each condition
in order on the shared generator state and append the four arrays
component-wise. -/
def simulateArrays (env : NumEnv) (model : ℚ → ℚ) (fs : FileSystem)
    (bundled : String → Spectrum) (inst_or_path : String) (angle_scale : ℚ)
    (polarised : Bool) :
    List (ℚ × ℕ × ℚ) → RngState → Except SimError (List ℚ × List ℚ × List ℚ × List ℚ)
  | [], _ => .ok ([], [], [], [])
  | (angle, points, time) :: rest, rng =>
    match run_experiment env model fs bundled inst_or_path angle_scale
      angle points time polarised rng with
    | .error err => .error err
    | .ok (arrs, rng') =>
      match simulateArrays env model fs bundled inst_or_path angle_scale
        polarised rest rng' with
      | .error err => .error err
      | .ok (q2, r2, dr2, n2) =>
        .ok (arrs.1 ++ q2, arrs.2.1 ++ r2, arrs.2.2.1 ++ dr2, arrs.2.2.2 ++ n2)

/-- One simulated data point (q, r, dr, counts). -/
abbrev Row := ℚ × ℚ × ℚ × ℚ

/-- Zip four parallel arrays into rows. -/
def zip4 (a b c d : List ℚ) : List Row := a.zip (b.zip (c.zip d))

/-- Ordering of rows by their Q component; models gathering with
simulation[0].argsort() (ascending; the argsort tie order among equal Q
values is unspecified, and a stable sort is used here). -/
def rowLE (x y : Row) : Prop := x.1 ≤ y.1

instance : DecidableRel rowLE := fun x y => inferInstanceAs (Decidable (x.1 ≤ y.1))

instance : IsTotal Row rowLE := ⟨fun x y => le_total x.1 y.1⟩

instance : IsTrans Row rowLE := ⟨fun _ _ _ h h2 => le_trans h h2⟩

/-- The strict version of rowLE, used to compare sorted outputs. -/
def rowLT (x y : Row) : Prop := x.1 < y.1

instance : IsAntisymm Row rowLT := ⟨fun _ _ h h2 => absurd h2 (lt_asymm h)⟩

/-- The shape every simulated data point has by construction: some natural
number of reflected counts c such that r and dr are the guarded quotients
c / n and sqrt c / n (0 when the incident count n is 0). -/
def RowShape (env : NumEnv) (row : Row) : Prop :=
  ∃ c : ℕ,
    row.2.1 = (if row.2.2.2 = 0 then 0 else (c : ℚ) / row.2.2.2) ∧
    row.2.2.1 = (if row.2.2.2 = 0 then 0 else env.sqrtQ (c : ℚ) / row.2.2.2)

/-- SimulateReflectivity.simulate: run every condition, then mask out the
points with zero reflectivity (mask = simulation[1] != 0, applied to all
four arrays) and sort all four arrays by ascending Q
(simulation[0].argsort()).  The masking-and-gathering of four parallel
equal-length arrays is modelled by zipping them into rows, filtering on the
reflectivity component, and sorting by the Q component. -/
def simulate (env : NumEnv) (model : ℚ → ℚ) (fs : FileSystem)
    (bundled : String → Spectrum) (inst_or_path : String) (angle_scale : ℚ)
    (angle_times : List (ℚ × ℕ × ℚ)) (polarised : Bool) (rng : RngState) :
    Except SimError (List ℚ × List ℚ × List ℚ × List ℚ) :=
  match simulateArrays env model fs bundled inst_or_path angle_scale
    polarised angle_times rng with
  | .error err => .error err
  | .ok (q, r, dr, n) =>
    let rows := zip4 q r dr n
    let kept := rows.filter (fun row => decide (row.2.1 ≠ 0))
    let sorted := List.insertionSort rowLE kept
    .ok (sorted.map (·.1), sorted.map (·.2.1), sorted.map (·.2.2.1),
      sorted.map (·.2.2.2))

/-! ## Fisher-information engine

hogben/utils.py (class Fisher) is not among the sources; only its test suite
hogben/tests/test_fisher.py is.  The engine is therefore modelled from the
specification (section 4.2), with the parts the test suite pins down (the
mocked reflectivity oracle, the bounds and importance rescalings, the worked
example) modelled so that the test setups can be expressed. -/

/-- Modelled from the spec: a Parameter borrowed by the Fisher engine (the
implementation in hogben/utils.py is missing from the sources) -- a scalar
value, optional [lower, upper] bounds, and an importance weight defaulting
to 1. -/
structure FParam where
  value : ℚ
  bounds : Option (ℚ × ℚ)
  importance : ℚ := 1

/-- Modelled from the spec: a reflectivity model as the Fisher engine sees
it (hogben/utils.py is missing from the sources).  eval k vals q is the
reflectivity returned by the k-th call of the (globally patched)
SimulateReflectivity.reflectivity oracle when the shared parameter list
currently holds the values vals; the call counter k encodes the statefulness
of the mocked side-effect generator of the test suite (a real model ignores
it).  hasParam j tells whether parameter j of the shared list belongs to the
parameter space of this model; a parameter absent from a model contributes a
zero column for that dataset. -/
structure FModel where
  eval : ℕ → List ℚ → List ℚ → List ℚ
  hasParam : ℕ → Bool

/-- An n × n matrix of zeroes, as a list of rows. -/
def zeroMatrix (n : ℕ) : List (List ℚ) :=
  List.replicate n (List.replicate n 0)

/-- Entrywise sum of two matrices. -/
def matAdd (A B : List (List ℚ)) : List (List ℚ) :=
  List.zipWith (List.zipWith (· + ·)) A B

/-- The weighted inner product Sum_i M_i * a_i * b_i used to assemble
J.T * M * J entry by entry. -/
def weightedInner (M a b : List ℚ) : ℚ :=
  (List.zipWith (· * ·) (List.zipWith (· * ·) M a) b).sum

/-- J.T * M * J from the list of Jacobian columns and the diagonal of M. -/
def gramMatrix (M : List ℚ) (cols : List (List ℚ)) : List (List ℚ) :=
  cols.map (fun cj => cols.map (fun cl => weightedInner M cj cl))

/-- Modelled from the spec: the finite-difference step for a parameter of
value v -- step_fraction * v, or a degenerate-free absolute step when the
value is exactly 0. -/
def fdDelta (step v : ℚ) : ℚ :=
  if v = 0 then step else step * v

/-- Modelled from the spec: the Jacobian columns of one dataset (the
implementation in hogben/utils.py is missing from the sources).  For each
parameter (index paired with the parameter record) belonging to the model,
perturb its value by delta in both directions, evaluate the model at the
perturbed parameter lists (consuming two oracle calls), and take the central
difference (r(p+d) - r(p-d)) / (2d); a parameter absent from the model
contributes a zero column and consumes no oracle call.  Returns the columns
and the advanced call counter.  (The perturbation is transactional in the
source; in this functional model the shared values list is never mutated,
only locally overridden with List.set.) -/
def fisherCols (m : FModel) (vals : List ℚ) (q : List ℚ) (step : ℚ) :
    List (ℕ × FParam) → ℕ → List (List ℚ) × ℕ
  | [], k => ([], k)
  | (j, p) :: rest, k =>
    if m.hasParam j then
      let d := fdDelta step p.value
      let rp := m.eval k (vals.set j (p.value + d)) q
      let rm := m.eval (k + 1) (vals.set j (p.value - d)) q
      let col := List.zipWith (fun a b => (a - b) / (2 * d)) rp rm
      let rec_ := fisherCols m vals q step rest (k + 2)
      (col :: rec_.1, rec_.2)
    else
      let rec_ := fisherCols m vals q step rest k
      (List.replicate q.length 0 :: rec_.1, rec_.2)

/-- Modelled from the spec: accumulate g += J.T * M * J over the datasets
(q, counts, model) in order, threading the oracle call counter (the
implementation in hogben/utils.py is missing from the sources).  Per
dataset: one baseline evaluation r0 = model(q), then the Jacobian columns,
then the diagonal weights M_i = counts_i / r0_i with entries of zero (or
non-finite, which cannot arise over the rationals) baseline treated as zero
weight. -/
def fisherAccum (xi : List FParam) (step : ℚ) :
    List (List ℚ × List ℚ × FModel) → ℕ → List (List ℚ) → List (List ℚ)
  | [], _, g => g
  | (q, cnt, m) :: rest, k, g =>
    let vals := xi.map (·.value)
    let r0 := m.eval k vals q
    let colsK := fisherCols m vals q step xi.enum (k + 1)
    let M := List.zipWith (fun c r => if r = 0 then 0 else c / r) cnt r0
    fisherAccum xi step rest colsK.2 (matAdd g (gramMatrix M colsK.1))

/-- Modelled from the spec: bounds rescaling (hogben/utils.py is missing
from the sources) -- applied iff every parameter has bounds:
g := H.T * g * H with H diagonal, H_jj = 1/(upper_j - lower_j). -/
def applyBounds (xi : List FParam) (g : List (List ℚ)) : List (List ℚ) :=
  if xi.all (fun p => p.bounds.isSome) then
    let H := xi.map (fun p => match p.bounds with
      | some (lb, ub) => 1 / (ub - lb)
      | none => 1)
    List.zipWith (fun hj row => List.zipWith (fun hl x => hj * x * hl) H row) H g
  else g

/-- Modelled from the spec: importance scaling (hogben/utils.py is missing
from the sources) -- applied iff any parameter declares a non-default
importance: every column j of g is multiplied by importance_j (column-only,
as pinned by the test suite). -/
def applyImportance (xi : List FParam) (g : List (List ℚ)) : List (List ℚ) :=
  if xi.any (fun p => p.importance ≠ 1) then
    g.map (fun row => List.zipWith (fun p x => x * p.importance) xi row)
  else g

/-- Modelled from the spec: the lazily-computed Fisher.fisher_information
property of hogben/utils.py (missing from the sources).  An empty parameter
list yields a 0 × 0 matrix immediately; if every Q array is empty an
all-zero n × n matrix is returned without evaluating models; otherwise the
information matrices of the datasets are accumulated and the two optional
post-scalings applied. -/
def fisher_information (qs : List (List ℚ)) (xi : List FParam)
    (counts : List (List ℚ)) (models : List FModel) (step : ℚ) :
    List (List ℚ) :=
  if xi.isEmpty then []
  else if qs.all List.isEmpty then zeroMatrix xi.length
  else
    let datasets := List.zipWith (fun q cm => (q, cm)) qs
      (List.zipWith (fun c m => (c, m)) counts models)
    applyImportance xi (applyBounds xi
      (fisherAccum xi step datasets 0 (zeroMatrix xi.length)))

/-! ## Concrete instances used by witnesses and counterexamples -/

/-- A concrete numeric environment for closed evaluations: geomspace returns
the requested number of points. -/
def envC : NumEnv where
  pi := 3
  sinDeg := fun a => a / 12
  sqrtQ := fun x => x
  geomspace := fun a b n =>
    match n with
    | 0 => []
    | m + 1 => a :: List.replicate m b
  geomspace_length := by
    intro a b n
    cases n <;> simp

/-- A one-point direct-beam file on disk. -/
def fsC : FileSystem := [("beam.dat", [(1, 1)])]

/-- Bundled package data for closed evaluations: every bundled file holds a
single (wavelength 1, flux 1) row. -/
def bundledC : String → Spectrum := fun _ => [(1, 1)]

/-- A two-row spectrum with strictly decreasing wavelengths, as loaded from
a user-supplied file. -/
def fsDec : FileSystem := [("dec.dat", [(2, 1), (1, 1)])]

/-- The one-condition experiment (angle 1, 1 point, time 1, unit spectrum)
used by closed evaluations. -/
def expC : Exp := ⟨envC, fun _ => 1, [(1, 1)], 1, 1, 1, 1⟩

/-- The experiment of the C3 witness: two increasing wavelengths, angle 30,
one requested point. -/
def expC3 : Exp := ⟨envC, fun _ => 1, [(1, 1), (2, 1)], 1, 30, 1, 1⟩

/-- The alternating mocked reflectivity values of
test_fisher.generate_reflectivity_data. -/
def rAlt : ℕ → List ℚ := fun k =>
  if k % 2 = 0 then [1, 1/2, 2/5, 1/5, 1/10] else [19/20, 9/20, 7/20, 3/20, 1/20]

/-- The mocked model of the Fisher analytical-values test: reflectivity
alternates between the two pinned lists on successive oracle calls and every
parameter belongs to the model. -/
def mockModel : FModel where
  eval := fun k _ _ => rAlt k
  hasParam := fun _ => true

/-- The three parameters (value, bounds) of the pinned worked example. -/
def xiC5 : List FParam :=
  [{ value := 20, bounds := some (15, 25) },
   { value := 50, bounds := some (45, 55) },
   { value := 10, bounds := some (15/2, 17/2) }]

/-- The Q points of the pinned worked example. -/
def qsC5 : List (List ℚ) := [[1/10, 1/5, 2/5, 3/5, 4/5]]

/-- The pinned Fisher information matrix of the worked example. -/
def pinnedC5 : List (List ℚ) :=
  [[1.28125, 0.5125, 25.625],
   [0.5125, 0.205, 10.25],
   [25.625, 10.25, 512.5]]

/-! ## Helper lemmas -/

theorem length_flux_binned (e : Exp) : e.flux_binned.length = e.points := by
  simp [Exp.flux_binned, histogramWeighted, Exp.q_bin_edges, e.env.geomspace_length]

theorem length_counts_incident (e : Exp) : e.counts_incident.length = e.points := by
  simp [Exp.counts_incident, length_flux_binned]

theorem length_q_binned (e : Exp) : e.q_binned.length = e.points := by
  simp [Exp.q_binned]

theorem length_r_model (e : Exp) : e.r_model.length = e.points := by
  rw [Exp.r_model, reflectivity]
  split
  · simp_all [length_q_binned e]
  · simp [length_q_binned e]

theorem length_lams (e : Exp) : e.lams.length = e.points := by
  simp [Exp.lams, length_r_model, length_counts_incident]

theorem length_counts_reflected (e : Exp) (rng : RngState) :
    (e.counts_reflected rng).length = e.points := by
  simp [Exp.counts_reflected, poissonDraws, length_lams]

theorem length_r_noisy (e : Exp) (rng : RngState) :
    (e.r_noisy rng).length = e.points := by
  simp [Exp.r_noisy, length_counts_reflected, length_counts_incident]

theorem length_r_error (e : Exp) (rng : RngState) :
    (e.r_error rng).length = e.points := by
  simp [Exp.r_error, length_counts_reflected, length_counts_incident]

theorem getD_of_lt {α : Type} (l : List α) (d : α) (i : ℕ) (h : i < l.length) :
    l.getD i d = l[i] := by
  rw [List.getD_eq_getElem?_getD, List.getElem?_eq_getElem h, Option.getD_some]

theorem getD_zipWith {α β γ : Type} (f : α → β → γ) (a : List α) (b : List β)
    (da : α) (db : β) (dc : γ) (i : ℕ) (h1 : i < a.length) (h2 : i < b.length) :
    (List.zipWith f a b).getD i dc = f (a.getD i da) (b.getD i db) := by
  have hz : i < (List.zipWith f a b).length := by
    rw [List.length_zipWith]; omega
  rw [getD_of_lt _ _ _ hz, getD_of_lt _ _ _ h1, getD_of_lt _ _ _ h2,
    List.getElem_zipWith]

theorem r_noisy_getD (e : Exp) (rng : RngState) (i : ℕ) (h : i < e.points) :
    (e.r_noisy rng).getD i 0 =
      if e.counts_incident.getD i 0 = 0 then 0
      else ((e.counts_reflected rng).getD i 0 : ℚ) / e.counts_incident.getD i 0 := by
  rw [Exp.r_noisy, getD_zipWith _ _ _ 0 0 0 i
    (by rw [length_counts_reflected]; exact h)
    (by rw [length_counts_incident]; exact h)]

theorem r_error_getD (e : Exp) (rng : RngState) (i : ℕ) (h : i < e.points) :
    (e.r_error rng).getD i 0 =
      if e.counts_incident.getD i 0 = 0 then 0
      else e.env.sqrtQ ((e.counts_reflected rng).getD i 0 : ℚ) / e.counts_incident.getD i 0 := by
  rw [Exp.r_error, getD_zipWith _ _ _ 0 0 0 i
    (by rw [length_counts_reflected]; exact h)
    (by rw [length_counts_incident]; exact h)]

theorem run_experiment_ok_elim {env : NumEnv} {model : ℚ → ℚ} {fs : FileSystem}
    {bundled : String → Spectrum} {inst_or_path : String} {angle_scale : ℚ}
    {angle : ℚ} {points : ℕ} {time : ℚ} {polarised : Bool} {rng : RngState}
    {res : (List ℚ × List ℚ × List ℚ × List ℚ) × RngState}
    (h : run_experiment env model fs bundled inst_or_path angle_scale
      angle points time polarised rng = .ok res) :
    ∃ data, incident_flux_data fs bundled inst_or_path polarised = .ok data ∧
      nondecreasing (Exp.q_bin_edges ⟨env, model, data, angle_scale, angle, points, time⟩) = true ∧
      res = ((Exp.q_binned ⟨env, model, data, angle_scale, angle, points, time⟩,
        Exp.r_noisy ⟨env, model, data, angle_scale, angle, points, time⟩ rng,
        Exp.r_error ⟨env, model, data, angle_scale, angle, points, time⟩ rng,
        Exp.counts_incident ⟨env, model, data, angle_scale, angle, points, time⟩),
        rngShift (Exp.lams ⟨env, model, data, angle_scale, angle, points, time⟩).length rng) := by
  rw [run_experiment] at h
  cases hd : incident_flux_data fs bundled inst_or_path polarised with
  | error err => rw [hd] at h; cases h
  | ok data =>
    rw [hd] at h
    dsimp only at h
    refine ⟨data, rfl, ?_⟩
    split at h
    · exact ⟨by assumption, (Except.ok.inj h).symm⟩
    · cases h

theorem zip4_length {a b c d : List ℚ} (h1 : a.length = b.length)
    (h2 : b.length = c.length) (h3 : c.length = d.length) :
    (zip4 a b c d).length = a.length := by
  simp [zip4, List.length_zip, h1, h2, h3]

theorem zip4_getD {a b c d : List ℚ} (i : ℕ)
    (ha : i < a.length) (hb : i < b.length) (hc : i < c.length) (hd : i < d.length) :
    (zip4 a b c d).getD i (0, 0, 0, 0) =
      (a.getD i 0, b.getD i 0, c.getD i 0, d.getD i 0) := by
  rw [zip4, List.zip_eq_zipWith,
    getD_zipWith _ _ _ 0 (0, 0, 0) (0, 0, 0, 0) i ha
      (by simp [List.length_zip]; omega)]
  rw [List.zip_eq_zipWith,
    getD_zipWith _ _ _ 0 (0, 0) (0, 0, 0) i hb (by simp [List.length_zip]; omega)]
  rw [List.zip_eq_zipWith, getD_zipWith _ _ _ 0 0 (0, 0) i hc hd]

theorem zip4_append {a1 b1 c1 d1 a2 b2 c2 d2 : List ℚ}
    (h1 : a1.length = b1.length) (h2 : b1.length = c1.length)
    (h3 : c1.length = d1.length) :
    zip4 (a1 ++ a2) (b1 ++ b2) (c1 ++ c2) (d1 ++ d2) =
      zip4 a1 b1 c1 d1 ++ zip4 a2 b2 c2 d2 := by
  unfold zip4
  rw [List.zip_append h3, List.zip_append (by simp [List.length_zip]; omega),
    List.zip_append (by simp [List.length_zip]; omega)]

/-- Every row produced by one experiment has the guarded-quotient shape. -/
theorem expRows_shape (e : Exp) (rng : RngState) :
    ∀ row ∈ zip4 e.q_binned (e.r_noisy rng) (e.r_error rng) e.counts_incident,
      RowShape e.env row := by
  intro row hrow
  rw [List.mem_iff_getElem] at hrow
  obtain ⟨i, hlen, hget⟩ := hrow
  have hi : i < e.points := by
    rw [zip4_length (by rw [length_q_binned, length_r_noisy])
      (by rw [length_r_noisy, length_r_error])
      (by rw [length_r_error, length_counts_incident]), length_q_binned] at hlen
    exact hlen
  rw [← getD_of_lt _ (0, 0, 0, 0) _ hlen,
    zip4_getD i (by rw [length_q_binned]; exact hi)
      (by rw [length_r_noisy]; exact hi) (by rw [length_r_error]; exact hi)
      (by rw [length_counts_incident]; exact hi)] at hget
  refine ⟨(e.counts_reflected rng).getD i 0, ?_, ?_⟩
  · rw [← hget]
    exact r_noisy_getD e rng i hi
  · rw [← hget]
    exact r_error_getD e rng i hi

/-- The concatenated arrays of the condition loop: the four arrays have
equal lengths and every zipped row has the guarded-quotient shape. -/
theorem simulateArrays_shape {env : NumEnv} {model : ℚ → ℚ} {fs : FileSystem}
    {bundled : String → Spectrum} {inst_or_path : String} {angle_scale : ℚ}
    {polarised : Bool} :
    ∀ (conds : List (ℚ × ℕ × ℚ)) (rng : RngState) (q r dr n : List ℚ),
      simulateArrays env model fs bundled inst_or_path angle_scale polarised
        conds rng = .ok (q, r, dr, n) →
      (q.length = r.length ∧ r.length = dr.length ∧ dr.length = n.length) ∧
      ∀ row ∈ zip4 q r dr n, RowShape env row
  | [], rng, q, r, dr, n, h => by
    rw [simulateArrays] at h
    simp only [Except.ok.injEq, Prod.mk.injEq] at h
    obtain ⟨hq, hr, hdr, hn⟩ := h
    subst hq; subst hr; subst hdr; subst hn
    simp [zip4]
  | (angle, points, time) :: rest, rng, q, r, dr, n, h => by
    rw [simulateArrays] at h
    cases hre : run_experiment env model fs bundled inst_or_path angle_scale
        angle points time polarised rng with
    | error err => rw [hre] at h; cases h
    | ok res =>
      rw [hre] at h
      dsimp only at h
      cases hrest : simulateArrays env model fs bundled inst_or_path angle_scale
          polarised rest res.2 with
      | error err => rw [hrest] at h; cases h
      | ok rest4 =>
        rw [hrest] at h
        obtain ⟨q2, r2, dr2, n2⟩ := rest4
        dsimp only at h
        obtain ⟨data, _, _, hres⟩ := run_experiment_ok_elim hre
        obtain ⟨ih_len, ih_shape⟩ :=
          simulateArrays_shape rest res.2 q2 r2 dr2 n2 hrest
        set e : Exp := ⟨env, model, data, angle_scale, angle, points, time⟩ with he
        have harrs : res.1 = (e.q_binned, e.r_noisy rng, e.r_error rng,
            e.counts_incident) := by rw [hres]
        simp only [Except.ok.injEq, Prod.mk.injEq] at h
        obtain ⟨hq, hr, hdr, hn⟩ := h
        subst hq; subst hr; subst hdr; subst hn
        have ha1 : res.1.1 = e.q_binned := by rw [harrs]
        have ha2 : res.1.2.1 = e.r_noisy rng := by rw [harrs]
        have ha3 : res.1.2.2.1 = e.r_error rng := by rw [harrs]
        have ha4 : res.1.2.2.2 = e.counts_incident := by rw [harrs]
        rw [ha1, ha2, ha3, ha4]
        have l1 : e.q_binned.length = (e.r_noisy rng).length := by
          rw [length_q_binned, length_r_noisy]
        have l2 : (e.r_noisy rng).length = (e.r_error rng).length := by
          rw [length_r_noisy, length_r_error]
        have l3 : (e.r_error rng).length = e.counts_incident.length := by
          rw [length_r_error, length_counts_incident]
        constructor
        · simp only [List.length_append]
          omega
        · intro row hrow
          rw [zip4_append l1 l2 l3] at hrow
          rcases List.mem_append.mp hrow with hmem | hmem
          · exact expRows_shape e rng row hmem
          · exact ih_shape row hmem

theorem simulate_ok_elim {env : NumEnv} {model : ℚ → ℚ} {fs : FileSystem}
    {bundled : String → Spectrum} {inst_or_path : String} {angle_scale : ℚ}
    {angle_times : List (ℚ × ℕ × ℚ)} {polarised : Bool} {rng : RngState}
    {q r dr n : List ℚ}
    (h : simulate env model fs bundled inst_or_path angle_scale angle_times
      polarised rng = .ok (q, r, dr, n)) :
    ∃ q0 r0 dr0 n0, simulateArrays env model fs bundled inst_or_path
        angle_scale polarised angle_times rng = .ok (q0, r0, dr0, n0) ∧
      q = (List.insertionSort rowLE ((zip4 q0 r0 dr0 n0).filter
        (fun row => decide (row.2.1 ≠ 0)))).map (fun row => row.1) ∧
      r = (List.insertionSort rowLE ((zip4 q0 r0 dr0 n0).filter
        (fun row => decide (row.2.1 ≠ 0)))).map (fun row => row.2.1) ∧
      dr = (List.insertionSort rowLE ((zip4 q0 r0 dr0 n0).filter
        (fun row => decide (row.2.1 ≠ 0)))).map (fun row => row.2.2.1) ∧
      n = (List.insertionSort rowLE ((zip4 q0 r0 dr0 n0).filter
        (fun row => decide (row.2.1 ≠ 0)))).map (fun row => row.2.2.2) := by
  rw [simulate] at h
  cases ha : simulateArrays env model fs bundled inst_or_path angle_scale
      polarised angle_times rng with
  | error err => rw [ha] at h; cases h
  | ok arrs =>
    obtain ⟨q0, r0, dr0, n0⟩ := arrs
    rw [ha] at h
    dsimp only at h
    simp only [Except.ok.injEq, Prod.mk.injEq] at h
    obtain ⟨hq, hr, hdr, hn⟩ := h
    exact ⟨q0, r0, dr0, n0, rfl, hq.symm, hr.symm, hdr.symm, hn.symm⟩

/-- C1: for every simulator run with a non-empty list of measurement
conditions that returns a dataset, the four returned arrays (Q, reflectivity,
uncertainty, incident counts) have equal lengths, every remaining point has a
non-zero incident count (all zero-count points were removed by the
reflectivity mask, since a zero-flux bin gets reflectivity 0), and the
remaining points are sorted in ascending order of Q. -/
theorem C1_simulate_parallel_filtered_sorted (env : NumEnv) (model : ℚ → ℚ)
    (fs : FileSystem) (bundled : String → Spectrum) (inst_or_path : String)
    (angle_scale : ℚ) (angle_times : List (ℚ × ℕ × ℚ)) (polarised : Bool)
    (rng : RngState) (q r dr n : List ℚ)
    (_hne : angle_times ≠ [])
    (h : simulate env model fs bundled inst_or_path angle_scale angle_times
      polarised rng = .ok (q, r, dr, n)) :
    (q.length = r.length ∧ r.length = dr.length ∧ dr.length = n.length) ∧
    (∀ i, i < n.length → n.getD i 0 ≠ 0) ∧
    q.Sorted (· ≤ ·) := by
  obtain ⟨q0, r0, dr0, n0, ha, hq, hr, hdr, hn⟩ := simulate_ok_elim h
  obtain ⟨-, hshape⟩ := simulateArrays_shape angle_times rng q0 r0 dr0 n0 ha
  set kept := (zip4 q0 r0 dr0 n0).filter (fun row => decide (row.2.1 ≠ 0)) with hkept
  set sorted := List.insertionSort rowLE kept with hsorted
  refine ⟨?_, ?_, ?_⟩
  · rw [hq, hr, hdr, hn]
    simp [List.length_map]
  · intro i hi
    rw [hn] at hi
    rw [List.length_map] at hi
    rw [hn, getD_of_lt _ 0 i (by rw [List.length_map]; exact hi),
      List.getElem_map]
    have hmem : sorted[i] ∈ sorted := List.getElem_mem hi
    have hmem2 : sorted[i] ∈ kept :=
      (List.perm_insertionSort rowLE kept).mem_iff.mp hmem
    have hrne : sorted[i].2.1 ≠ 0 := by
      have := List.of_mem_filter hmem2
      simpa using this
    have hrows : sorted[i] ∈ zip4 q0 r0 dr0 n0 := List.mem_of_mem_filter hmem2
    obtain ⟨c, hc1, hc2⟩ := hshape (sorted[i]) hrows
    intro hzero
    rw [hzero] at hc1
    simp at hc1
    exact hrne hc1
  · rw [hq]
    have hs : sorted.Sorted rowLE := List.sorted_insertionSort rowLE kept
    rw [List.Sorted] at hs
    unfold List.Sorted
    rw [List.pairwise_map]
    exact hs

/-- Closed evaluation of the simulator on a one-condition plan with an
all-ones draw stream: one point at Q = 1 with unit counts survives. -/
theorem evalSimUnit :
    simulate envC (fun _ => 1) fsC bundledC "OFFSPEC" 1 [(1, 1, 1)] false
      (fun _ => 1) = .ok ([1], [1], [1], [1]) := by
  norm_num [simulate, simulateArrays, run_experiment, incident_flux_data,
    non_pol_instr_dict, pol_instr_dict, envC, fsC, bundledC,
    Exp.q_bin_edges, Exp.qVals, Exp.q_binned, Exp.counts_incident,
    Exp.flux_binned, Exp.scaled_flux, Exp.r_noisy, Exp.r_error,
    Exp.counts_reflected, Exp.lams, Exp.r_model, reflectivity,
    histogramWeighted, inBin, nondecreasing, poissonDraws, poissonDraw,
    zip4, rowLE, List.insertionSort, List.orderedInsert, List.lookup,
    List.range_succ, List.range_zero, List.filter_cons, List.filter_nil,
    List.zip_cons_cons, List.zip_nil_right, List.zip_nil_left,
    List.zipWith_cons_cons, List.sum_cons, List.sum_nil,
    List.getElem?_cons_zero, List.getElem?_cons_succ]

theorem C1_witness :
    ((([1] : List ℚ).length = ([1] : List ℚ).length ∧
      ([1] : List ℚ).length = ([1] : List ℚ).length ∧
      ([1] : List ℚ).length = ([1] : List ℚ).length) ∧
     (∀ i, i < ([1] : List ℚ).length → ([1] : List ℚ).getD i 0 ≠ 0) ∧
     ([1] : List ℚ).Sorted (· ≤ ·)) :=
  C1_simulate_parallel_filtered_sorted envC (fun _ => 1) fsC bundledC "OFFSPEC"
    1 [(1, 1, 1)] false (fun _ => 1) [1] [1] [1] [1]
    (by simp) evalSimUnit

theorem run_experiment_ok_intro {env : NumEnv} {model : ℚ → ℚ} {fs : FileSystem}
    {bundled : String → Spectrum} {inst_or_path : String} {angle_scale : ℚ}
    {angle : ℚ} {points : ℕ} {time : ℚ} {polarised : Bool} (rng : RngState)
    {data : Spectrum}
    (hdata : incident_flux_data fs bundled inst_or_path polarised = .ok data)
    (hbins : nondecreasing (Exp.q_bin_edges
      ⟨env, model, data, angle_scale, angle, points, time⟩) = true) :
    run_experiment env model fs bundled inst_or_path angle_scale angle points
        time polarised rng =
      .ok ((Exp.q_binned ⟨env, model, data, angle_scale, angle, points, time⟩,
        Exp.r_noisy ⟨env, model, data, angle_scale, angle, points, time⟩ rng,
        Exp.r_error ⟨env, model, data, angle_scale, angle, points, time⟩ rng,
        Exp.counts_incident ⟨env, model, data, angle_scale, angle, points, time⟩),
        rngShift (Exp.lams ⟨env, model, data, angle_scale, angle, points, time⟩).length rng) := by
  rw [run_experiment, hdata]
  dsimp only
  rw [if_pos hbins]

/-- C2: in every single-condition run whose spectrum loads and whose bin
edges are monotone, no error is raised (in particular no division-by-zero
error: the guarded divisions are total), every bin with zero incident count
gets reflectivity exactly 0 and uncertainty exactly 0, and every bin with
non-zero incident count gets reflectivity = reflected / incident and
uncertainty = sqrt(reflected) / incident. -/
theorem C2_zero_incident_guard (env : NumEnv) (model : ℚ → ℚ) (fs : FileSystem)
    (bundled : String → Spectrum) (inst_or_path : String) (angle_scale : ℚ)
    (angle : ℚ) (points : ℕ) (time : ℚ) (polarised : Bool) (rng : RngState)
    (data : Spectrum)
    (hdata : incident_flux_data fs bundled inst_or_path polarised = .ok data)
    (hbins : nondecreasing (Exp.q_bin_edges
      ⟨env, model, data, angle_scale, angle, points, time⟩) = true) :
    run_experiment env model fs bundled inst_or_path angle_scale angle points
        time polarised rng =
      .ok ((Exp.q_binned ⟨env, model, data, angle_scale, angle, points, time⟩,
        Exp.r_noisy ⟨env, model, data, angle_scale, angle, points, time⟩ rng,
        Exp.r_error ⟨env, model, data, angle_scale, angle, points, time⟩ rng,
        Exp.counts_incident ⟨env, model, data, angle_scale, angle, points, time⟩),
        rngShift (Exp.lams ⟨env, model, data, angle_scale, angle, points, time⟩).length rng) ∧
    (∀ i, i < points →
      ((Exp.counts_incident ⟨env, model, data, angle_scale, angle, points, time⟩).getD i 0 = 0 →
        (Exp.r_noisy ⟨env, model, data, angle_scale, angle, points, time⟩ rng).getD i 0 = 0 ∧
        (Exp.r_error ⟨env, model, data, angle_scale, angle, points, time⟩ rng).getD i 0 = 0) ∧
      ((Exp.counts_incident ⟨env, model, data, angle_scale, angle, points, time⟩).getD i 0 ≠ 0 →
        (Exp.r_noisy ⟨env, model, data, angle_scale, angle, points, time⟩ rng).getD i 0 =
          ((Exp.counts_reflected ⟨env, model, data, angle_scale, angle, points, time⟩ rng).getD i 0 : ℚ) /
            (Exp.counts_incident ⟨env, model, data, angle_scale, angle, points, time⟩).getD i 0 ∧
        (Exp.r_error ⟨env, model, data, angle_scale, angle, points, time⟩ rng).getD i 0 =
          env.sqrtQ ((Exp.counts_reflected ⟨env, model, data, angle_scale, angle, points, time⟩ rng).getD i 0 : ℚ) /
            (Exp.counts_incident ⟨env, model, data, angle_scale, angle, points, time⟩).getD i 0)) := by
  refine ⟨run_experiment_ok_intro rng hdata hbins, ?_⟩
  intro i hi
  constructor
  · intro hzero
    rw [r_noisy_getD _ rng i hi, r_error_getD _ rng i hi, hzero]
    simp
  · intro hne
    rw [r_noisy_getD _ rng i hi, r_error_getD _ rng i hi, if_neg hne, if_neg hne]
    exact ⟨rfl, rfl⟩

theorem C2_witness :
    (run_experiment envC (fun _ => 1) fsC bundledC "OFFSPEC" 1 1 1 1 false (fun _ => 1) =
      .ok ((Exp.q_binned expC, Exp.r_noisy expC (fun _ => 1),
        Exp.r_error expC (fun _ => 1), Exp.counts_incident expC),
        rngShift (Exp.lams expC).length (fun _ => 1)) ∧
     (∀ i, i < 1 →
      ((Exp.counts_incident expC).getD i 0 = 0 →
        (Exp.r_noisy expC (fun _ => 1)).getD i 0 = 0 ∧
        (Exp.r_error expC (fun _ => 1)).getD i 0 = 0) ∧
      ((Exp.counts_incident expC).getD i 0 ≠ 0 →
        (Exp.r_noisy expC (fun _ => 1)).getD i 0 =
          ((Exp.counts_reflected expC (fun _ => 1)).getD i 0 : ℚ) /
            (Exp.counts_incident expC).getD i 0 ∧
        (Exp.r_error expC (fun _ => 1)).getD i 0 =
          envC.sqrtQ ((Exp.counts_reflected expC (fun _ => 1)).getD i 0 : ℚ) /
            (Exp.counts_incident expC).getD i 0))) :=
  C2_zero_incident_guard envC (fun _ => 1) fsC bundledC "OFFSPEC" 1 1 1 1 false
    (fun _ => 1) [(1, 1)] (by decide)
    (by norm_num [Exp.q_bin_edges, Exp.qVals, envC, nondecreasing])

/-- Each per-bin incident count is nonnegative when the loaded fluxes and the
counting time are. -/
theorem counts_incident_nonneg (e : Exp)
    (hflux : ∀ p ∈ e.data, 0 ≤ p.2) (htime : 0 ≤ e.time) :
    ∀ x ∈ e.counts_incident, 0 ≤ x := by
  intro x hx
  rw [Exp.counts_incident] at hx
  obtain ⟨f, hf, hfx⟩ := List.mem_map.mp hx
  rw [← hfx]
  refine mul_nonneg ?_ htime
  rw [Exp.flux_binned, histogramWeighted] at hf
  obtain ⟨i, hi, hsum⟩ := List.mem_map.mp hf
  rw [← hsum]
  refine List.sum_nonneg ?_
  intro w hw
  obtain ⟨vw, hvw, hws⟩ := List.mem_map.mp hw
  rw [← hws]
  have hzip : (vw.1, vw.2) ∈ e.qVals.zip e.scaled_flux := by
    simpa using List.mem_of_mem_filter hvw
  have hsw : vw.2 ∈ e.scaled_flux := (List.of_mem_zip hzip).2
  rw [Exp.scaled_flux] at hsw
  obtain ⟨f0, hf0, hfs⟩ := List.mem_map.mp hsw
  obtain ⟨p, hp, hpf⟩ := List.mem_map.mp hf0
  rw [← hfs]
  refine mul_nonneg ?_ (sq_nonneg _)
  rw [← hpf]
  exact hflux p hp

/-- In the concatenated rows of the condition loop, every incident count is
nonnegative when all loaded fluxes and all counting times are. -/
theorem simulateArrays_counts_nonneg {env : NumEnv} {model : ℚ → ℚ}
    {fs : FileSystem} {bundled : String → Spectrum} {inst_or_path : String}
    {angle_scale : ℚ} {polarised : Bool}
    (hflux : ∀ data, incident_flux_data fs bundled inst_or_path polarised = .ok data →
      ∀ p ∈ data, 0 ≤ p.2) :
    ∀ (conds : List (ℚ × ℕ × ℚ)) (rng : RngState) (q r dr n : List ℚ),
      (∀ c ∈ conds, 0 ≤ c.2.2) →
      simulateArrays env model fs bundled inst_or_path angle_scale polarised
        conds rng = .ok (q, r, dr, n) →
      ∀ x ∈ n, 0 ≤ x
  | [], rng, q, r, dr, n, htime, h => by
    rw [simulateArrays] at h
    simp only [Except.ok.injEq, Prod.mk.injEq] at h
    obtain ⟨-, -, -, hn⟩ := h
    rw [← hn]
    intro x hx
    cases hx
  | (angle, points, time) :: rest, rng, q, r, dr, n, htime, h => by
    rw [simulateArrays] at h
    cases hre : run_experiment env model fs bundled inst_or_path angle_scale
        angle points time polarised rng with
    | error err => rw [hre] at h; cases h
    | ok res =>
      rw [hre] at h
      dsimp only at h
      cases hrest : simulateArrays env model fs bundled inst_or_path angle_scale
          polarised rest res.2 with
      | error err => rw [hrest] at h; cases h
      | ok rest4 =>
        obtain ⟨q2, r2, dr2, n2⟩ := rest4
        rw [hrest] at h
        dsimp only at h
        simp only [Except.ok.injEq, Prod.mk.injEq] at h
        obtain ⟨-, -, -, hn⟩ := h
        rw [← hn]
        intro x hx
        obtain ⟨data, hdata, -, hres⟩ := run_experiment_ok_elim hre
        rcases List.mem_append.mp hx with hmem | hmem
        · have : res.1.2.2.2 = Exp.counts_incident
              ⟨env, model, data, angle_scale, angle, points, time⟩ := by
            rw [hres]
          rw [this] at hmem
          exact counts_incident_nonneg _ (hflux data hdata)
            (htime (angle, points, time) (by simp)) x hmem
        · exact simulateArrays_counts_nonneg hflux rest res.2 q2 r2 dr2 n2
            (fun c hc => htime c (List.mem_cons_of_mem _ hc)) hrest x hmem

/-- C10: every point surviving in the dataset returned by simulate has
non-zero, indeed strictly positive, observed reflectivity (given physically
nonnegative fluxes and counting times); and the mask can also drop a bin
whose incident count is positive but whose Poisson draw was 0, so the output
can hold fewer points than requested (the closed conjunct exhibits a run
with one requested point, incident count 1, draw 0 and an empty dataset). -/
theorem C10_positive_reflectivity (env : NumEnv) (model : ℚ → ℚ)
    (fs : FileSystem) (bundled : String → Spectrum) (inst_or_path : String)
    (angle_scale : ℚ) (angle_times : List (ℚ × ℕ × ℚ)) (polarised : Bool)
    (rng : RngState) (q r dr n : List ℚ)
    (hflux : ∀ data, incident_flux_data fs bundled inst_or_path polarised = .ok data →
      ∀ p ∈ data, 0 ≤ p.2)
    (htime : ∀ c ∈ angle_times, 0 ≤ c.2.2)
    (h : simulate env model fs bundled inst_or_path angle_scale angle_times
      polarised rng = .ok (q, r, dr, n)) :
    (∀ i, i < r.length → 0 < r.getD i 0) ∧
    (Exp.counts_incident expC = [1] ∧
     Exp.r_noisy expC (fun _ => 0) = [0] ∧
     simulate envC (fun _ => 1) fsC bundledC "OFFSPEC" 1 [(1, 1, 1)] false
       (fun _ => 0) = .ok ([], [], [], [])) := by
  obtain ⟨q0, r0, dr0, n0, ha, hq, hr, hdr, hn⟩ := simulate_ok_elim h
  obtain ⟨-, hshape⟩ := simulateArrays_shape angle_times rng q0 r0 dr0 n0 ha
  have hnonneg := simulateArrays_counts_nonneg hflux angle_times rng q0 r0 dr0 n0 htime ha
  constructor
  · intro i hi
    rw [hr] at hi
    rw [List.length_map] at hi
    rw [hr, getD_of_lt _ 0 i (by rw [List.length_map]; exact hi),
      List.getElem_map]
    set kept := (zip4 q0 r0 dr0 n0).filter (fun row => decide (row.2.1 ≠ 0)) with hkept
    set sorted := List.insertionSort rowLE kept with hsorted
    have hmem : sorted[i] ∈ sorted := List.getElem_mem hi
    have hmem2 : sorted[i] ∈ kept :=
      (List.perm_insertionSort rowLE kept).mem_iff.mp hmem
    have hrne : sorted[i].2.1 ≠ 0 := by
      have := List.of_mem_filter hmem2
      simpa using this
    have hrows : sorted[i] ∈ zip4 q0 r0 dr0 n0 := List.mem_of_mem_filter hmem2
    obtain ⟨c, hc1, hc2⟩ := hshape (sorted[i]) hrows
    have hnne : sorted[i].2.2.2 ≠ 0 := by
      intro hzero
      rw [hzero] at hc1
      simp at hc1
      exact hrne hc1
    have hnmem : sorted[i].2.2.2 ∈ n0 := by
      have : (sorted[i].1, sorted[i].2.1, sorted[i].2.2.1, sorted[i].2.2.2) ∈
          zip4 q0 r0 dr0 n0 := hrows
      have h2 := (List.of_mem_zip this).2
      have h3 := (List.of_mem_zip h2).2
      exact (List.of_mem_zip h3).2
    have hpos : 0 < sorted[i].2.2.2 :=
      lt_of_le_of_ne (hnonneg _ hnmem) (Ne.symm hnne)
    rw [hc1, if_neg hnne] at hrne
    rw [hc1, if_neg hnne]
    have hcpos : 0 < (c : ℚ) := by
      rcases Nat.eq_zero_or_pos c with hc0 | hc0
      · rw [hc0] at hrne
        simp at hrne
      · exact_mod_cast hc0
    exact div_pos hcpos hpos
  · refine ⟨?_, ?_, ?_⟩
    · norm_num [Exp.counts_incident, Exp.flux_binned, Exp.scaled_flux,
        Exp.qVals, Exp.q_bin_edges, expC, envC, histogramWeighted, inBin,
        List.range_succ, List.range_zero, List.filter_cons, List.filter_nil,
        List.zip_cons_cons, List.zip_nil_right, List.sum_cons, List.sum_nil,
        List.getElem?_cons_zero, List.getElem?_cons_succ]
    · norm_num [Exp.r_noisy, Exp.counts_reflected, Exp.lams, Exp.r_model,
        Exp.q_binned, Exp.counts_incident, Exp.flux_binned, Exp.scaled_flux,
        Exp.qVals, Exp.q_bin_edges, expC, envC, histogramWeighted, inBin,
        reflectivity, poissonDraws, poissonDraw,
        List.range_succ, List.range_zero, List.filter_cons, List.filter_nil,
        List.zip_cons_cons, List.zip_nil_right, List.zipWith_cons_cons,
        List.sum_cons, List.sum_nil,
        List.getElem?_cons_zero, List.getElem?_cons_succ]
    · norm_num [simulate, simulateArrays, run_experiment, incident_flux_data,
        non_pol_instr_dict, pol_instr_dict, envC, fsC, bundledC,
        Exp.q_bin_edges, Exp.qVals, Exp.q_binned, Exp.counts_incident,
        Exp.flux_binned, Exp.scaled_flux, Exp.r_noisy, Exp.r_error,
        Exp.counts_reflected, Exp.lams, Exp.r_model, reflectivity,
        histogramWeighted, inBin, nondecreasing, poissonDraws, poissonDraw,
        zip4, rowLE, List.insertionSort, List.orderedInsert, List.lookup,
        List.range_succ, List.range_zero, List.filter_cons, List.filter_nil,
        List.zip_cons_cons, List.zip_nil_right, List.zip_nil_left,
        List.zipWith_cons_cons, List.sum_cons, List.sum_nil,
        List.getElem?_cons_zero, List.getElem?_cons_succ]

theorem C10_witness :
    ((∀ i, i < ([1] : List ℚ).length → 0 < ([1] : List ℚ).getD i 0) ∧
     (Exp.counts_incident expC = [1] ∧
      Exp.r_noisy expC (fun _ => 0) = [0] ∧
      simulate envC (fun _ => 1) fsC bundledC "OFFSPEC" 1 [(1, 1, 1)] false
        (fun _ => 0) = .ok ([], [], [], []))) :=
  C10_positive_reflectivity envC (fun _ => 1) fsC bundledC "OFFSPEC" 1
    [(1, 1, 1)] false (fun _ => 1) [1] [1] [1] [1]
    (by intro data hdata p hp
        have hd : data = [(1, 1)] := by
          rw [incident_flux_data] at hdata
          simp [non_pol_instr_dict, bundledC] at hdata
          exact hdata.symm
        subst hd
        simp at hp
        subst hp
        norm_num)
    (by intro c hc
        simp at hc
        rw [hc]
        norm_num)
    evalSimUnit

/-- C8: two simulate calls with the same model, conditions, instrument
selector and polarisation flag, and the same random seed (resolved through
_check_random_state: the same fixed integer seed, the same generator
instance, or the same singleton) return identical datasets -- the simulator
is deterministic given its random source. -/
theorem C8_deterministic_replay (env : NumEnv) (model : ℚ → ℚ)
    (fs : FileSystem) (bundled : String → Spectrum) (inst_or_path : String)
    (angle_scale : ℚ) (angle_times : List (ℚ × ℕ × ℚ)) (polarised : Bool)
    (globalRng : RngState) (default_rng : ℕ → RngState) (s1 s2 : RngSeed)
    (q1 r1 dr1 n1 q2 r2 dr2 n2 : List ℚ)
    (hseed : s1 = s2)
    (h1 : simulate env model fs bundled inst_or_path angle_scale angle_times
      polarised (check_random_state globalRng default_rng s1) = .ok (q1, r1, dr1, n1))
    (h2 : simulate env model fs bundled inst_or_path angle_scale angle_times
      polarised (check_random_state globalRng default_rng s2) = .ok (q2, r2, dr2, n2)) :
    q1 = q2 ∧ r1 = r2 ∧ dr1 = dr2 ∧ n1 = n2 := by
  subst hseed
  rw [h1] at h2
  simp only [Except.ok.injEq, Prod.mk.injEq] at h2
  exact ⟨h2.1, h2.2.1, h2.2.2.1, h2.2.2.2⟩

theorem C8_witness :
    (([1] : List ℚ) = [1] ∧ ([1] : List ℚ) = [1] ∧ ([1] : List ℚ) = [1] ∧
      ([1] : List ℚ) = [1]) :=
  C8_deterministic_replay envC (fun _ => 1) fsC bundledC "OFFSPEC" 1
    [(1, 1, 1)] false (fun _ => 0) (fun _ n => n) (.genSeed (fun _ => 1))
    (.genSeed (fun _ => 1)) [1] [1] [1] [1] [1] [1] [1] [1] rfl
    evalSimUnit evalSimUnit

/-- C6: loading the direct-beam spectrum fails, necessarily with the
resource-not-found error, exactly when the configured selector is neither a
key of the registry for the requested polarisation nor a path to an existing
file; otherwise the spectrum is loaded and no error is raised. -/
theorem C6_resource_not_found_iff (fs : FileSystem)
    (bundled : String → Spectrum) (inst_or_path : String) (polarised : Bool) :
    (incident_flux_data fs bundled inst_or_path polarised = .error .resourceNotFound ↔
      ((if polarised then pol_instr_dict else non_pol_instr_dict).lookup inst_or_path = none ∧
        fs.lookup inst_or_path = none)) ∧
    ((∃ data, incident_flux_data fs bundled inst_or_path polarised = .ok data) ↔
      ¬((if polarised then pol_instr_dict else non_pol_instr_dict).lookup inst_or_path = none ∧
        fs.lookup inst_or_path = none)) ∧
    (∀ err, incident_flux_data fs bundled inst_or_path polarised = .error err →
      err = .resourceNotFound) := by
  rw [incident_flux_data]
  cases hdict : (if polarised then pol_instr_dict else non_pol_instr_dict).lookup inst_or_path with
  | some fname => simp
  | none =>
    cases hfs : fs.lookup inst_or_path with
    | some contents => simp
    | none => simp

/-- C7 counterexample: the polarised registry has no entry for SURF (nor
INTER), so loading the SURF direct beam with the polarised flag raises the
not-found error (with a filesystem in which "SURF" is not a file path),
contradicting the claim that all four names are mapped for both variants. -/
theorem C7_counterexample :
    pol_instr_dict.lookup "SURF" = none ∧
    pol_instr_dict.lookup "INTER" = none ∧
    incident_flux_data [] bundledC "SURF" true = .error .resourceNotFound ∧
    incident_flux_data [] bundledC "INTER" true = .error .resourceNotFound := by
  refine ⟨rfl, rfl, rfl, rfl⟩

/-- C7 (amended): the non-polarised registry maps each of OFFSPEC, SURF,
POLREF and INTER to a bundled reference file, and loading succeeds for each;
the polarised registry maps exactly OFFSPEC and POLREF, and loading succeeds
for those two polarised variants. -/
theorem C7_registry_amended (fs : FileSystem) (bundled : String → Spectrum) :
    (∀ name ∈ ["OFFSPEC", "SURF", "POLREF", "INTER"],
      ∃ fname, non_pol_instr_dict.lookup name = some fname ∧
        incident_flux_data fs bundled name false = .ok (bundled fname)) ∧
    (∀ name ∈ ["OFFSPEC", "POLREF"],
      ∃ fname, pol_instr_dict.lookup name = some fname ∧
        incident_flux_data fs bundled name true = .ok (bundled fname)) ∧
    pol_instr_dict.lookup "SURF" = none ∧ pol_instr_dict.lookup "INTER" = none := by
  refine ⟨?_, ?_, rfl, rfl⟩
  · intro name hname
    simp only [List.mem_cons, List.not_mem_nil, or_false] at hname
    rcases hname with h | h | h | h <;> subst h
    · exact ⟨_, rfl, rfl⟩
    · exact ⟨_, rfl, rfl⟩
    · exact ⟨_, rfl, rfl⟩
    · exact ⟨_, rfl, rfl⟩
  · intro name hname
    simp only [List.mem_cons, List.not_mem_nil, or_false] at hname
    rcases hname with h | h <;> subst h
    · exact ⟨_, rfl, rfl⟩
    · exact ⟨_, rfl, rfl⟩

theorem C7_witness :
    ∃ fname, non_pol_instr_dict.lookup "SURF" = some fname ∧
      incident_flux_data [] bundledC "SURF" false = .ok (bundledC fname) :=
  (C7_registry_amended [] bundledC).1 "SURF" (by simp)

/-- C4: with an empty parameter list the Fisher information is the 0 x 0
matrix, whatever the datasets and models (no model is consulted); with every
Q array empty it is the all-zero n x n matrix for n parameters, again
independent of the models supplied. -/
theorem C4_fisher_empty_cases :
    (∀ qs counts models models2 step,
      fisher_information qs [] counts models step = [] ∧
      fisher_information qs [] counts models step =
        fisher_information qs [] counts models2 step) ∧
    (∀ qs xi counts models models2 step, (∀ q ∈ qs, q = ([] : List ℚ)) →
      (fisher_information qs xi counts models step).length = xi.length ∧
      (∀ row ∈ fisher_information qs xi counts models step,
        row = List.replicate xi.length (0 : ℚ)) ∧
      fisher_information qs xi counts models step =
        fisher_information qs xi counts models2 step) := by
  constructor
  · intro qs counts models models2 step
    rw [fisher_information, fisher_information]
    simp
  · intro qs xi counts models models2 step hq
    have hall : qs.all List.isEmpty = true := by
      rw [List.all_eq_true]
      intro q hqs
      rw [List.isEmpty_iff]
      exact hq q hqs
    by_cases hxi : xi.isEmpty
    · rw [fisher_information, fisher_information, if_pos hxi, if_pos hxi]
      rw [List.isEmpty_iff] at hxi
      subst hxi
      simp
    · rw [fisher_information, fisher_information, if_neg hxi, if_neg hxi,
        if_pos hall, if_pos hall]
      refine ⟨?_, ?_, rfl⟩
      · rw [zeroMatrix, List.length_replicate]
      · intro row hrow
        rw [zeroMatrix] at hrow
        exact List.eq_of_mem_replicate hrow

theorem C4_witness :
    ((fisher_information [[]] xiC5 [[1]] [mockModel] (5/1000)).length = xiC5.length ∧
     (∀ row ∈ fisher_information [[]] xiC5 [[1]] [mockModel] (5/1000),
       row = List.replicate xiC5.length (0 : ℚ)) ∧
     fisher_information [[]] xiC5 [[1]] [mockModel] (5/1000) =
       fisher_information [[]] xiC5 [[1]] [⟨fun _ _ _ => [], fun _ => false⟩] (5/1000)) :=
  C4_fisher_empty_cases.2 [[]] xiC5 [[1]] [mockModel]
    [⟨fun _ _ _ => [], fun _ => false⟩] (5/1000) (by simp)

/-- C5 counterexample: with the incident-count list [100, 200, 250, 500,
1000] that the claim names as input (rather than the all-100 counts of the
test, whose weight-matrix diagonal counts/r0 is that list), the computed
matrix entry (0,0) is 545/64 = 8.515625, far outside the 1e-8 relative
tolerance of the pinned value 1.28125 -- the claim as stated is false. -/
theorem C5_counterexample :
    ((fisher_information qsC5 xiC5 [[100, 200, 250, 500, 1000]] [mockModel]
        (5/1000)).getD 0 []).getD 0 0 = 545/64 ∧
    ¬(|(545/64 : ℚ) - 1.28125| ≤ 1/100000000 * |(1.28125 : ℚ)|) := by
  constructor
  · norm_num [fisher_information, fisherAccum, fisherCols, gramMatrix,
      weightedInner, matAdd, zeroMatrix, applyBounds, applyImportance, fdDelta,
      xiC5, qsC5, mockModel, rAlt, List.enum, List.enumFrom,
      List.range_succ, List.range_zero, List.filter_cons, List.filter_nil,
      List.zipWith_cons_cons, List.sum_cons, List.sum_nil, List.set,
      List.replicate_succ, List.replicate_zero]
  · have habs : |(545/64 : ℚ) - 1.28125| = 545/64 - 1.28125 :=
      abs_of_pos (by norm_num)
    rw [habs]
    rw [abs_of_pos (show (0:ℚ) < 1.28125 by norm_num)]
    norm_num

/-- C5 (amended): for the pinned worked example with incident counts all
equal to 100 (so that the weight diagonal counts/r0 equals
[100, 200, 250, 500, 1000]), parameters (20,15,25), (50,45,55),
(10,7.5,8.5), the alternating mocked reflectivity and step 0.005, the Fisher
information matrix equals the pinned matrix exactly (hence within the 1e-8
relative tolerance). -/
theorem C5_fisher_worked_example :
    fisher_information qsC5 xiC5 [[100, 100, 100, 100, 100]] [mockModel]
      (5/1000) = pinnedC5 := by
  norm_num [fisher_information, fisherAccum, fisherCols, gramMatrix,
    weightedInner, matAdd, zeroMatrix, applyBounds, applyImportance, fdDelta,
    xiC5, qsC5, mockModel, rAlt, pinnedC5, List.enum, List.enumFrom,
    List.range_succ, List.range_zero, List.filter_cons, List.filter_nil,
    List.zipWith_cons_cons, List.sum_cons, List.sum_nil, List.set,
    List.replicate_succ, List.replicate_zero]

theorem headD_mem {l : List ℚ} (hne : l ≠ []) : l.headD 0 ∈ l := by
  cases l with
  | nil => exact absurd rfl hne
  | cons a t => exact List.mem_cons_self a t

theorem getLastD_mem {l : List ℚ} (hne : l ≠ []) : l.getLastD 0 ∈ l := by
  rw [List.getLastD_eq_getLast?, List.getLast?_eq_getLast l hne, Option.getD_some]
  exact List.getLast_mem hne

theorem headD_is_max {l : List ℚ}
    (hp : List.Pairwise (fun a b => b ≤ a) l) : ∀ x ∈ l, x ≤ l.headD 0 := by
  intro x hx
  cases l with
  | nil => cases hx
  | cons a t =>
    rcases List.mem_cons.mp hx with h | h
    · rw [h]; exact le_refl _
    · exact (List.pairwise_cons.mp hp).1 x h

theorem getLastD_is_min : ∀ {l : List ℚ},
    List.Pairwise (fun a b => b ≤ a) l → ∀ x ∈ l, l.getLastD 0 ≤ x
  | [], _, x, hx => by cases hx
  | [a], _, x, hx => by
    have h := List.mem_singleton.mp hx
    subst h
    simp
  | a :: b :: u, hp, x, hx => by
    have hrec := getLastD_is_min (List.pairwise_cons.mp hp).2
    rw [List.getLastD_cons]
    have hne : (b :: u) ≠ [] := by simp
    have heq : (b :: u).getLastD a = (b :: u).getLastD 0 := by
      rw [List.getLastD_eq_getLast?, List.getLastD_eq_getLast?,
        List.getLast?_eq_getLast (b :: u) hne]
      simp
    rw [heq]
    rcases List.mem_cons.mp hx with h | h
    · subst h
      exact (List.pairwise_cons.mp hp).1 _ (getLastD_mem hne)
    · exact hrec x h

/-- With nondecreasing positive wavelengths and a positive beam constant,
the derived Q values are nonincreasing. -/
theorem qVals_antitone (e : Exp)
    (hmono : List.Pairwise (· ≤ ·) (e.data.map Prod.fst))
    (hwpos : ∀ p ∈ e.data, 0 < p.1)
    (hcpos : 0 < 4 * e.env.pi * e.env.sinDeg e.angle) :
    List.Pairwise (fun a b => b ≤ a) e.qVals := by
  rw [Exp.qVals, List.pairwise_map]
  have hmono2 : List.Pairwise (fun a b => a ≤ b ∧ 0 < a ∧ 0 < b)
      (e.data.map Prod.fst) := by
    refine hmono.imp_of_mem ?_
    intro a b ha hb hab
    obtain ⟨p, hp, hpa⟩ := List.mem_map.mp ha
    obtain ⟨p2, hp2, hpb⟩ := List.mem_map.mp hb
    exact ⟨hab, hpa ▸ hwpos p hp, hpb ▸ hwpos p2 hp2⟩
  refine hmono2.imp ?_
  rintro a b hyp
  exact (div_le_div_iff_of_pos_left hcpos hyp.2.2 hyp.2.1).mpr hyp.1

/-- C3 counterexample: a user-supplied spectrum with monotonic (strictly
decreasing) wavelengths makes the derived Q values increasing, so the
geomspace edges run from the maximal to the minimal Q and np.histogram
raises its non-monotonic-bins error: no incident counts are produced at all,
contradicting the claim for this monotonic direction. -/
theorem C3_counterexample :
    incident_flux_data fsDec bundledC "dec.dat" false = .ok [(2, 1), (1, 1)] ∧
    List.Pairwise (fun a b => b < a) (([(2, 1), (1, 1)] : Spectrum).map Prod.fst) ∧
    run_experiment envC (fun _ => 1) fsDec bundledC "dec.dat" 1 30 1 1 false
      (fun _ => 1) = .error SimError.nonMonotonicBins := by
  have hd : incident_flux_data fsDec bundledC "dec.dat" false =
      .ok [(2, 1), (1, 1)] := rfl
  refine ⟨hd, by norm_num, ?_⟩
  rw [run_experiment, hd]
  norm_num [Exp.q_bin_edges, Exp.qVals, envC, nondecreasing]

/-- C3 (amended): for every measurement condition and every loaded
direct-beam spectrum with monotonically increasing wavelengths (positive,
with a positive beam constant 4 * pi * sin(angle) -- for decreasing
wavelengths the histogram step raises instead, see the counterexample):
each wavelength is converted to Q = 4 * pi * sin(radians angle) / lambda;
the points+1 geomspace edges (whose contract at this call -- first element,
last element, constant ratio, monotonicity -- is hypothesised of the
external collaborator) span exactly the minimal and maximal observed Q; the
run succeeds; and the incident count per bin is the weighted histogram of
the Q values (weights = flux * (angle/angle_scale)^2) times the counting
time. -/
theorem C3_binning_amended (env : NumEnv) (model : ℚ → ℚ) (fs : FileSystem)
    (bundled : String → Spectrum) (inst_or_path : String) (angle_scale : ℚ)
    (angle : ℚ) (points : ℕ) (time : ℚ) (polarised : Bool) (rng : RngState)
    (data : Spectrum) (ratio : ℚ)
    (hdata : incident_flux_data fs bundled inst_or_path polarised = .ok data)
    (hne : data ≠ [])
    (hmono : List.Pairwise (· ≤ ·) (data.map Prod.fst))
    (hwpos : ∀ p ∈ data, 0 < p.1)
    (hcpos : 0 < 4 * env.pi * env.sinDeg angle)
    (hhead : (Exp.q_bin_edges ⟨env, model, data, angle_scale, angle, points, time⟩).head? =
      some ((Exp.qVals ⟨env, model, data, angle_scale, angle, points, time⟩).getLastD 0))
    (hlast : (Exp.q_bin_edges ⟨env, model, data, angle_scale, angle, points, time⟩).getLast? =
      some ((Exp.qVals ⟨env, model, data, angle_scale, angle, points, time⟩).headD 0))
    (hgeom : (Exp.q_bin_edges ⟨env, model, data, angle_scale, angle, points, time⟩).Chain'
      (fun x y => y = x * ratio))
    (hsortedE : nondecreasing
      (Exp.q_bin_edges ⟨env, model, data, angle_scale, angle, points, time⟩) = true) :
    (∀ i, i < data.length →
      (Exp.qVals ⟨env, model, data, angle_scale, angle, points, time⟩).getD i 0 =
        4 * env.pi * env.sinDeg angle / (data.map Prod.fst).getD i 0) ∧
    (Exp.q_bin_edges ⟨env, model, data, angle_scale, angle, points, time⟩).length = points + 1 ∧
    ((Exp.qVals ⟨env, model, data, angle_scale, angle, points, time⟩).getLastD 0 ∈
        Exp.qVals ⟨env, model, data, angle_scale, angle, points, time⟩ ∧
      ∀ x ∈ Exp.qVals ⟨env, model, data, angle_scale, angle, points, time⟩,
        (Exp.qVals ⟨env, model, data, angle_scale, angle, points, time⟩).getLastD 0 ≤ x) ∧
    ((Exp.qVals ⟨env, model, data, angle_scale, angle, points, time⟩).headD 0 ∈
        Exp.qVals ⟨env, model, data, angle_scale, angle, points, time⟩ ∧
      ∀ x ∈ Exp.qVals ⟨env, model, data, angle_scale, angle, points, time⟩,
        x ≤ (Exp.qVals ⟨env, model, data, angle_scale, angle, points, time⟩).headD 0) ∧
    (Exp.q_bin_edges ⟨env, model, data, angle_scale, angle, points, time⟩).head? =
      some ((Exp.qVals ⟨env, model, data, angle_scale, angle, points, time⟩).getLastD 0) ∧
    (Exp.q_bin_edges ⟨env, model, data, angle_scale, angle, points, time⟩).getLast? =
      some ((Exp.qVals ⟨env, model, data, angle_scale, angle, points, time⟩).headD 0) ∧
    (Exp.q_bin_edges ⟨env, model, data, angle_scale, angle, points, time⟩).Chain'
      (fun x y => y = x * ratio) ∧
    run_experiment env model fs bundled inst_or_path angle_scale angle points
        time polarised rng =
      .ok ((Exp.q_binned ⟨env, model, data, angle_scale, angle, points, time⟩,
        Exp.r_noisy ⟨env, model, data, angle_scale, angle, points, time⟩ rng,
        Exp.r_error ⟨env, model, data, angle_scale, angle, points, time⟩ rng,
        Exp.counts_incident ⟨env, model, data, angle_scale, angle, points, time⟩),
        rngShift (Exp.lams ⟨env, model, data, angle_scale, angle, points, time⟩).length rng) ∧
    Exp.counts_incident ⟨env, model, data, angle_scale, angle, points, time⟩ =
      (histogramWeighted (Exp.qVals ⟨env, model, data, angle_scale, angle, points, time⟩)
        (Exp.scaled_flux ⟨env, model, data, angle_scale, angle, points, time⟩)
        (Exp.q_bin_edges ⟨env, model, data, angle_scale, angle, points, time⟩)).map
        (fun f => f * time) ∧
    Exp.scaled_flux ⟨env, model, data, angle_scale, angle, points, time⟩ =
      (data.map Prod.snd).map (fun f => f * (angle / angle_scale) ^ 2) := by
  have hanti := qVals_antitone ⟨env, model, data, angle_scale, angle, points, time⟩
    hmono hwpos hcpos
  have hqne : Exp.qVals ⟨env, model, data, angle_scale, angle, points, time⟩ ≠ [] := by
    rw [Exp.qVals]
    simp [hne]
  refine ⟨?_, ?_, ⟨getLastD_mem hqne, getLastD_is_min hanti⟩,
    ⟨headD_mem hqne, headD_is_max hanti⟩, hhead, hlast, hgeom,
    run_experiment_ok_intro rng hdata hsortedE, rfl, rfl⟩
  · intro i hi
    rw [Exp.qVals, getD_of_lt _ 0 i (by simpa using hi),
      getD_of_lt _ 0 i (by simpa using hi), List.getElem_map]
  · rw [Exp.q_bin_edges, env.geomspace_length]

theorem C3_witness :
    ((∀ i, i < ([(1, 1), (2, 1)] : Spectrum).length →
      (Exp.qVals expC3).getD i 0 =
        4 * envC.pi * envC.sinDeg 30 / (([(1, 1), (2, 1)] : Spectrum).map Prod.fst).getD i 0) ∧
    (Exp.q_bin_edges expC3).length = 1 + 1 ∧
    ((Exp.qVals expC3).getLastD 0 ∈ Exp.qVals expC3 ∧
      ∀ x ∈ Exp.qVals expC3, (Exp.qVals expC3).getLastD 0 ≤ x) ∧
    ((Exp.qVals expC3).headD 0 ∈ Exp.qVals expC3 ∧
      ∀ x ∈ Exp.qVals expC3, x ≤ (Exp.qVals expC3).headD 0) ∧
    (Exp.q_bin_edges expC3).head? = some ((Exp.qVals expC3).getLastD 0) ∧
    (Exp.q_bin_edges expC3).getLast? = some ((Exp.qVals expC3).headD 0) ∧
    (Exp.q_bin_edges expC3).Chain' (fun x y => y = x * 2) ∧
    run_experiment envC (fun _ => 1) [("beam2.dat", [(1, 1), (2, 1)])] bundledC
      "beam2.dat" 1 30 1 1 false (fun _ => 1) =
      .ok ((Exp.q_binned expC3, Exp.r_noisy expC3 (fun _ => 1),
        Exp.r_error expC3 (fun _ => 1), Exp.counts_incident expC3),
        rngShift (Exp.lams expC3).length (fun _ => 1)) ∧
    Exp.counts_incident expC3 =
      (histogramWeighted (Exp.qVals expC3) (Exp.scaled_flux expC3)
        (Exp.q_bin_edges expC3)).map (fun f => f * 1) ∧
    Exp.scaled_flux expC3 =
      (([(1, 1), (2, 1)] : Spectrum).map Prod.snd).map (fun f => f * (30 / 1) ^ 2)) :=
  C3_binning_amended envC (fun _ => 1)
    [("beam2.dat", [(1, 1), (2, 1)])] bundledC "beam2.dat" 1 30 1 1 false
    (fun _ => 1) [(1, 1), (2, 1)] 2 rfl (by simp) (by norm_num)
    (by intro p hp
        rcases List.mem_cons.mp hp with h | h
        · rw [h]; norm_num
        · rw [List.mem_singleton.mp h]; norm_num)
    (by norm_num [envC])
    rfl rfl
    (by norm_num [Exp.q_bin_edges, Exp.qVals, expC3, envC, List.chain'_cons])
    (by norm_num [Exp.q_bin_edges, Exp.qVals, expC3, envC, nondecreasing])

theorem rngShift_const {rng : RngState} (hconst : ∀ i, rng i = rng 0) (m : ℕ) :
    rngShift m rng = rng :=
  funext fun i => by rw [rngShift]; rw [hconst (i + m), hconst i]

theorem run_experiment_ok_transfer {env : NumEnv} {model : ℚ → ℚ}
    {fs : FileSystem} {bundled : String → Spectrum} {inst_or_path : String}
    {angle_scale : ℚ} {angle : ℚ} {points : ℕ} {time : ℚ} {polarised : Bool}
    {rng : RngState} (rng2 : RngState)
    {res : (List ℚ × List ℚ × List ℚ × List ℚ) × RngState}
    (h : run_experiment env model fs bundled inst_or_path angle_scale angle
      points time polarised rng = .ok res) :
    ∃ res2, run_experiment env model fs bundled inst_or_path angle_scale angle
      points time polarised rng2 = .ok res2 := by
  obtain ⟨data, hdata, hbins, -⟩ := run_experiment_ok_elim h
  exact ⟨_, run_experiment_ok_intro rng2 hdata hbins⟩

theorem simulateArrays_ok_all {env : NumEnv} {model : ℚ → ℚ} {fs : FileSystem}
    {bundled : String → Spectrum} {inst_or_path : String} {angle_scale : ℚ}
    {polarised : Bool} :
    ∀ (conds : List (ℚ × ℕ × ℚ)) (rng rng0 : RngState)
      (out : List ℚ × List ℚ × List ℚ × List ℚ),
      simulateArrays env model fs bundled inst_or_path angle_scale polarised
        conds rng = .ok out →
      ∀ c ∈ conds, ∃ res, run_experiment env model fs bundled inst_or_path
        angle_scale c.1 c.2.1 c.2.2 polarised rng0 = .ok res
  | [], _, _, _, _ => by intro c hc; cases hc
  | (angle, points, time) :: rest, rng, rng0, out, h => by
    rw [simulateArrays] at h
    cases hre : run_experiment env model fs bundled inst_or_path angle_scale
        angle points time polarised rng with
    | error err => rw [hre] at h; cases h
    | ok res =>
      rw [hre] at h
      dsimp only at h
      cases hrest : simulateArrays env model fs bundled inst_or_path angle_scale
          polarised rest res.2 with
      | error err => rw [hrest] at h; cases h
      | ok rest4 =>
        intro c hc
        rcases List.mem_cons.mp hc with hcc | hcc
        · subst hcc
          exact run_experiment_ok_transfer rng0 hre
        · exact simulateArrays_ok_all rest res.2 rng0 rest4 hrest c hcc

theorem simulateArrays_ok_of_all {env : NumEnv} {model : ℚ → ℚ}
    {fs : FileSystem} {bundled : String → Spectrum} {inst_or_path : String}
    {angle_scale : ℚ} {polarised : Bool} :
    ∀ (conds : List (ℚ × ℕ × ℚ)) (rng : RngState),
      (∀ c ∈ conds, ∃ res, run_experiment env model fs bundled inst_or_path
        angle_scale c.1 c.2.1 c.2.2 polarised rng = .ok res) →
      ∃ out, simulateArrays env model fs bundled inst_or_path angle_scale
        polarised conds rng = .ok out
  | [], rng, _ => ⟨([], [], [], []), by rw [simulateArrays]⟩
  | (angle, points, time) :: rest, rng, hall => by
    obtain ⟨res, hres⟩ := hall (angle, points, time) (List.mem_cons_self _ _)
    have hall2 : ∀ c ∈ rest, ∃ r2, run_experiment env model fs bundled
        inst_or_path angle_scale c.1 c.2.1 c.2.2 polarised res.2 = .ok r2 := by
      intro c hc
      obtain ⟨r0, h0⟩ := hall c (List.mem_cons_of_mem _ hc)
      exact run_experiment_ok_transfer res.2 h0
    obtain ⟨out2, hout2⟩ := simulateArrays_ok_of_all rest res.2 hall2
    obtain ⟨q2, r2, dr2, n2⟩ := out2
    refine ⟨(res.1.1 ++ q2, res.1.2.1 ++ r2, res.1.2.2.1 ++ dr2, res.1.2.2.2 ++ n2), ?_⟩
    rw [simulateArrays, hres]
    dsimp only
    rw [hout2]

/-- With a position-independent random stream, permuting the measurement
conditions permutes the simulated rows. -/
theorem simulateArrays_perm_rows {env : NumEnv} {model : ℚ → ℚ}
    {fs : FileSystem} {bundled : String → Spectrum} {inst_or_path : String}
    {angle_scale : ℚ} {polarised : Bool} {rng : RngState}
    (hconst : ∀ i, rng i = rng 0)
    {l₁ l₂ : List (ℚ × ℕ × ℚ)} (p : l₁.Perm l₂) :
    ∀ q1 r1 dr1 n1 q2 r2 dr2 n2,
      simulateArrays env model fs bundled inst_or_path angle_scale polarised
        l₁ rng = .ok (q1, r1, dr1, n1) →
      simulateArrays env model fs bundled inst_or_path angle_scale polarised
        l₂ rng = .ok (q2, r2, dr2, n2) →
      (zip4 q1 r1 dr1 n1).Perm (zip4 q2 r2 dr2 n2) := by
  induction p with
  | nil =>
    intro q1 r1 dr1 n1 q2 r2 dr2 n2 h1 h2
    rw [simulateArrays] at h1 h2
    simp only [Except.ok.injEq, Prod.mk.injEq] at h1 h2
    obtain ⟨ha1, hb1, hc1, hd1⟩ := h1
    obtain ⟨ha2, hb2, hc2, hd2⟩ := h2
    rw [← ha1, ← hb1, ← hc1, ← hd1, ← ha2, ← hb2, ← hc2, ← hd2]
  | cons x p IH =>
    intro q1 r1 dr1 n1 q2 r2 dr2 n2 h1 h2
    obtain ⟨angle, points, time⟩ := x
    rw [simulateArrays] at h1 h2
    cases hre : run_experiment env model fs bundled inst_or_path angle_scale
        angle points time polarised rng with
    | error err => rw [hre] at h1; cases h1
    | ok res =>
      rw [hre] at h1 h2
      dsimp only at h1 h2
      obtain ⟨data, hdata, hbins, hres⟩ := run_experiment_ok_elim hre
      have hres2 : res.2 = rng := by
        rw [hres]
        exact rngShift_const hconst _
      rw [hres2] at h1 h2
      cases hrest1 : simulateArrays env model fs bundled inst_or_path
          angle_scale polarised _ rng with
      | error err => rw [hrest1] at h1; cases h1
      | ok rest1 =>
        rw [hrest1] at h1
        cases hrest2 : simulateArrays env model fs bundled inst_or_path
            angle_scale polarised _ rng with
        | error err => rw [hrest2] at h2; cases h2
        | ok rest2 =>
          rw [hrest2] at h2
          obtain ⟨qa, ra, dra, na⟩ := rest1
          obtain ⟨qb, rb, drb, nb⟩ := rest2
          dsimp only at h1 h2
          simp only [Except.ok.injEq, Prod.mk.injEq] at h1 h2
          obtain ⟨ha1, hb1, hc1, hd1⟩ := h1
          obtain ⟨ha2, hb2, hc2, hd2⟩ := h2
          rw [← ha1, ← hb1, ← hc1, ← hd1, ← ha2, ← hb2, ← hc2, ← hd2]
          set e : Exp := ⟨env, model, data, angle_scale, angle, points, time⟩ with hE
          have harr1 : res.1.1 = e.q_binned := by rw [hres]
          have harr2 : res.1.2.1 = e.r_noisy rng := by rw [hres]
          have harr3 : res.1.2.2.1 = e.r_error rng := by rw [hres]
          have harr4 : res.1.2.2.2 = e.counts_incident := by rw [hres]
          rw [harr1, harr2, harr3, harr4,
            zip4_append (by rw [length_q_binned, length_r_noisy])
              (by rw [length_r_noisy, length_r_error])
              (by rw [length_r_error, length_counts_incident]),
            zip4_append (by rw [length_q_binned, length_r_noisy])
              (by rw [length_r_noisy, length_r_error])
              (by rw [length_r_error, length_counts_incident])]
          exact (IH qa ra dra na qb rb drb nb hrest1 hrest2).append_left _
  | swap x y l =>
    intro q1 r1 dr1 n1 q2 r2 dr2 n2 h1 h2
    obtain ⟨ax, px, tx⟩ := x
    obtain ⟨ay, py, ty⟩ := y
    rw [simulateArrays] at h1 h2
    cases hry : run_experiment env model fs bundled inst_or_path angle_scale
        ay py ty polarised rng with
    | error err => rw [hry] at h1; cases h1
    | ok resY =>
      rw [hry] at h1
      dsimp only at h1
      obtain ⟨dataY, hdataY, hbinsY, hresY⟩ := run_experiment_ok_elim hry
      have hresY2 : resY.2 = rng := by
        rw [hresY]; exact rngShift_const hconst _
      rw [hresY2] at h1
      rw [simulateArrays] at h1
      cases hrx : run_experiment env model fs bundled inst_or_path angle_scale
          ax px tx polarised rng with
      | error err => rw [hrx] at h1; cases h1
      | ok resX =>
        rw [hrx] at h1 h2
        dsimp only at h1 h2
        obtain ⟨dataX, hdataX, hbinsX, hresX⟩ := run_experiment_ok_elim hrx
        have hresX2 : resX.2 = rng := by
          rw [hresX]; exact rngShift_const hconst _
        rw [hresX2] at h1 h2
        rw [simulateArrays] at h2
        rw [hry] at h2
        dsimp only at h2
        rw [hresY2] at h2
        cases hrest : simulateArrays env model fs bundled inst_or_path
            angle_scale polarised l rng with
        | error err => rw [hrest] at h1; cases h1
        | ok rest4 =>
          rw [hrest] at h1 h2
          obtain ⟨qr, rr, drr, nr⟩ := rest4
          dsimp only at h1 h2
          simp only [Except.ok.injEq, Prod.mk.injEq] at h1 h2
          obtain ⟨ha1, hb1, hc1, hd1⟩ := h1
          obtain ⟨ha2, hb2, hc2, hd2⟩ := h2
          rw [← ha1, ← hb1, ← hc1, ← hd1, ← ha2, ← hb2, ← hc2, ← hd2]
          set eX : Exp := ⟨env, model, dataX, angle_scale, ax, px, tx⟩ with hEX
          set eY : Exp := ⟨env, model, dataY, angle_scale, ay, py, ty⟩ with hEY
          have hx1 : resX.1.1 = eX.q_binned := by rw [hresX]
          have hx2 : resX.1.2.1 = eX.r_noisy rng := by rw [hresX]
          have hx3 : resX.1.2.2.1 = eX.r_error rng := by rw [hresX]
          have hx4 : resX.1.2.2.2 = eX.counts_incident := by rw [hresX]
          have hy1 : resY.1.1 = eY.q_binned := by rw [hresY]
          have hy2 : resY.1.2.1 = eY.r_noisy rng := by rw [hresY]
          have hy3 : resY.1.2.2.1 = eY.r_error rng := by rw [hresY]
          have hy4 : resY.1.2.2.2 = eY.counts_incident := by rw [hresY]
          rw [hx1, hx2, hx3, hx4, hy1, hy2, hy3, hy4]
          rw [show eY.q_binned ++ (eX.q_binned ++ qr) =
              (eY.q_binned ++ eX.q_binned) ++ qr from (List.append_assoc ..).symm,
            show eY.r_noisy rng ++ (eX.r_noisy rng ++ rr) =
              (eY.r_noisy rng ++ eX.r_noisy rng) ++ rr from (List.append_assoc ..).symm,
            show eY.r_error rng ++ (eX.r_error rng ++ drr) =
              (eY.r_error rng ++ eX.r_error rng) ++ drr from (List.append_assoc ..).symm,
            show eY.counts_incident ++ (eX.counts_incident ++ nr) =
              (eY.counts_incident ++ eX.counts_incident) ++ nr from (List.append_assoc ..).symm,
            show eX.q_binned ++ (eY.q_binned ++ qr) =
              (eX.q_binned ++ eY.q_binned) ++ qr from (List.append_assoc ..).symm,
            show eX.r_noisy rng ++ (eY.r_noisy rng ++ rr) =
              (eX.r_noisy rng ++ eY.r_noisy rng) ++ rr from (List.append_assoc ..).symm,
            show eX.r_error rng ++ (eY.r_error rng ++ drr) =
              (eX.r_error rng ++ eY.r_error rng) ++ drr from (List.append_assoc ..).symm,
            show eX.counts_incident ++ (eY.counts_incident ++ nr) =
              (eX.counts_incident ++ eY.counts_incident) ++ nr from (List.append_assoc ..).symm]
          rw [zip4_append (by simp only [List.length_append, length_q_binned, length_r_noisy, length_r_error, length_counts_incident]) (by simp only [List.length_append, length_q_binned, length_r_noisy, length_r_error, length_counts_incident]) (by simp only [List.length_append, length_q_binned, length_r_noisy, length_r_error, length_counts_incident]),
            zip4_append (by simp only [List.length_append, length_q_binned, length_r_noisy, length_r_error, length_counts_incident]) (by simp only [List.length_append, length_q_binned, length_r_noisy, length_r_error, length_counts_incident]) (by simp only [List.length_append, length_q_binned, length_r_noisy, length_r_error, length_counts_incident]),
            zip4_append (by simp only [List.length_append, length_q_binned, length_r_noisy, length_r_error, length_counts_incident]) (by simp only [List.length_append, length_q_binned, length_r_noisy, length_r_error, length_counts_incident]) (by simp only [List.length_append, length_q_binned, length_r_noisy, length_r_error, length_counts_incident]),
            zip4_append (by simp only [List.length_append, length_q_binned, length_r_noisy, length_r_error, length_counts_incident]) (by simp only [List.length_append, length_q_binned, length_r_noisy, length_r_error, length_counts_incident]) (by simp only [List.length_append, length_q_binned, length_r_noisy, length_r_error, length_counts_incident])]
          exact (List.perm_append_comm).append_right _
  | @trans la lb lc p1 p2 IH1 IH2 =>
    intro q1 r1 dr1 n1 q2 r2 dr2 n2 h1 h2
    have hall := simulateArrays_ok_all la rng rng (q1, r1, dr1, n1) h1
    have hallmid : ∀ c ∈ lb, ∃ res, run_experiment env model fs bundled
        inst_or_path angle_scale c.1 c.2.1 c.2.2 polarised rng = .ok res :=
      fun c hc => hall c (p1.mem_iff.mpr hc)
    obtain ⟨outm, houtm⟩ := simulateArrays_ok_of_all lb rng hallmid
    obtain ⟨qm, rm, drm, nm⟩ := outm
    exact (IH1 q1 r1 dr1 n1 qm rm drm nm h1 houtm).trans
      (IH2 qm rm drm nm q2 r2 dr2 n2 houtm h2)

/-- C9 counterexample: the random generator is shared and stateful across
the condition loop, so permuting two conditions reassigns the Poisson draws
and changes the final dataset: with the stream 1, 2, 3, ... the plan
[(1,1,1), (2,1,1)] and its permutation [(2,1,1), (1,1,1)] give different
reflectivities at the same sorted Q values. -/
theorem C9_counterexample :
    ([((2 : ℚ), (1 : ℕ), (1 : ℚ)), (1, 1, 1)]).Perm [((1 : ℚ), (1 : ℕ), (1 : ℚ)), (2, 1, 1)] ∧
    simulate envC (fun _ => 1) fsC bundledC "OFFSPEC" 1 [(1, 1, 1), (2, 1, 1)]
      false (fun i => i + 1) = .ok ([1, 2], [1, 1/2], [1, 1/2], [1, 4]) ∧
    simulate envC (fun _ => 1) fsC bundledC "OFFSPEC" 1 [(2, 1, 1), (1, 1, 1)]
      false (fun i => i + 1) = .ok ([1, 2], [2, 1/4], [2, 1/4], [1, 4]) ∧
    ([1, (1 : ℚ)/2] : List ℚ) ≠ [2, 1/4] := by
  refine ⟨List.Perm.swap _ _ _, ?_, ?_, by norm_num⟩ <;>
    norm_num [simulate, simulateArrays, run_experiment, incident_flux_data,
      non_pol_instr_dict, pol_instr_dict, envC, fsC, bundledC,
      Exp.q_bin_edges, Exp.qVals, Exp.q_binned, Exp.counts_incident,
      Exp.flux_binned, Exp.scaled_flux, Exp.r_noisy, Exp.r_error,
      Exp.counts_reflected, Exp.lams, Exp.r_model, reflectivity,
      histogramWeighted, inBin, nondecreasing, poissonDraws, poissonDraw,
      rngShift, zip4, rowLE, List.insertionSort, List.orderedInsert,
      List.lookup, List.range_succ, List.range_zero, List.filter_cons,
      List.filter_nil, List.zip_cons_cons, List.zip_nil_right,
      List.zip_nil_left, List.zipWith_cons_cons, List.sum_cons, List.sum_nil,
      List.getElem?_cons_zero, List.getElem?_cons_succ]

/-- C9 (amended): reordering the measurement conditions does not affect the
dataset provided the shared random source is position-independent (a
constant stream; the stateful numpy generator is not, see the
counterexample) and the surviving Q values are pairwise distinct (tie order
under argsort is unspecified): then the two runs return identical Q,
reflectivity, uncertainty and count arrays. -/
theorem C9_order_invariance_amended (env : NumEnv) (model : ℚ → ℚ)
    (fs : FileSystem) (bundled : String → Spectrum) (inst_or_path : String)
    (angle_scale : ℚ) (l₁ l₂ : List (ℚ × ℕ × ℚ)) (polarised : Bool)
    (rng : RngState)
    (hconst : ∀ i, rng i = rng 0)
    (hperm : l₁.Perm l₂)
    (q1 r1 dr1 n1 q2 r2 dr2 n2 : List ℚ)
    (h1 : simulate env model fs bundled inst_or_path angle_scale l₁ polarised
      rng = .ok (q1, r1, dr1, n1))
    (h2 : simulate env model fs bundled inst_or_path angle_scale l₂ polarised
      rng = .ok (q2, r2, dr2, n2))
    (hdist : q1.Pairwise (· ≠ ·)) :
    q1 = q2 ∧ r1 = r2 ∧ dr1 = dr2 ∧ n1 = n2 := by
  obtain ⟨qa, ra, dra, na, ha, hqa, hra, hdra, hna⟩ := simulate_ok_elim h1
  obtain ⟨qb, rb, drb, nb, hb, hqb, hrb, hdrb, hnb⟩ := simulate_ok_elim h2
  have hrows := simulateArrays_perm_rows hconst hperm qa ra dra na qb rb drb nb ha hb
  set kept1 := (zip4 qa ra dra na).filter (fun row => decide (row.2.1 ≠ 0)) with hk1
  set kept2 := (zip4 qb rb drb nb).filter (fun row => decide (row.2.1 ≠ 0)) with hk2
  have hkperm : kept1.Perm kept2 := hrows.filter _
  set sorted1 := List.insertionSort rowLE kept1 with hs1
  set sorted2 := List.insertionSort rowLE kept2 with hs2
  have hsperm : sorted1.Perm sorted2 :=
    ((List.perm_insertionSort rowLE kept1).trans hkperm).trans
      (List.perm_insertionSort rowLE kept2).symm
  have hdist1 : sorted1.Pairwise (fun a b : Row => a.1 ≠ b.1) := by
    rw [hqa] at hdist
    exact List.pairwise_map.mp hdist
  have hdist2 : sorted2.Pairwise (fun a b : Row => a.1 ≠ b.1) :=
    (hsperm.pairwise_iff (fun h => h.symm)).mp hdist1
  have hsorted1 : sorted1.Pairwise rowLT := by
    refine ((List.sorted_insertionSort rowLE kept1).and hdist1).imp ?_
    rintro a b ⟨hle, hne⟩
    exact lt_of_le_of_ne hle hne
  have hsorted2 : sorted2.Pairwise rowLT := by
    refine ((List.sorted_insertionSort rowLE kept2).and hdist2).imp ?_
    rintro a b ⟨hle, hne⟩
    exact lt_of_le_of_ne hle hne
  have heq : sorted1 = sorted2 := List.eq_of_perm_of_sorted hsperm hsorted1 hsorted2
  rw [hqa, hqb, hra, hrb, hdra, hdrb, hna, hnb, heq]
  exact ⟨rfl, rfl, rfl, rfl⟩

theorem C9_witness :
    (([1, 2] : List ℚ) = [1, 2] ∧ ([1, (1 : ℚ)/4] : List ℚ) = [1, 1/4] ∧
     ([1, (1 : ℚ)/4] : List ℚ) = [1, 1/4] ∧ ([1, (4 : ℚ)] : List ℚ) = [1, 4]) :=
  C9_order_invariance_amended envC (fun _ => 1) fsC bundledC "OFFSPEC" 1
    [(1, 1, 1), (2, 1, 1)] [(2, 1, 1), (1, 1, 1)] false (fun _ => 1)
    (fun _ => rfl) (List.Perm.swap _ _ _).symm
    [1, 2] [1, 1/4] [1, 1/4] [1, 4] [1, 2] [1, 1/4] [1, 1/4] [1, 4]
    (by norm_num [simulate, simulateArrays, run_experiment, incident_flux_data,
      non_pol_instr_dict, pol_instr_dict, envC, fsC, bundledC,
      Exp.q_bin_edges, Exp.qVals, Exp.q_binned, Exp.counts_incident,
      Exp.flux_binned, Exp.scaled_flux, Exp.r_noisy, Exp.r_error,
      Exp.counts_reflected, Exp.lams, Exp.r_model, reflectivity,
      histogramWeighted, inBin, nondecreasing, poissonDraws, poissonDraw,
      rngShift, zip4, rowLE, List.insertionSort, List.orderedInsert,
      List.lookup, List.range_succ, List.range_zero, List.filter_cons,
      List.filter_nil, List.zip_cons_cons, List.zip_nil_right,
      List.zip_nil_left, List.zipWith_cons_cons, List.sum_cons, List.sum_nil,
      List.getElem?_cons_zero, List.getElem?_cons_succ])
    (by norm_num [simulate, simulateArrays, run_experiment, incident_flux_data,
      non_pol_instr_dict, pol_instr_dict, envC, fsC, bundledC,
      Exp.q_bin_edges, Exp.qVals, Exp.q_binned, Exp.counts_incident,
      Exp.flux_binned, Exp.scaled_flux, Exp.r_noisy, Exp.r_error,
      Exp.counts_reflected, Exp.lams, Exp.r_model, reflectivity,
      histogramWeighted, inBin, nondecreasing, poissonDraws, poissonDraw,
      rngShift, zip4, rowLE, List.insertionSort, List.orderedInsert,
      List.lookup, List.range_succ, List.range_zero, List.filter_cons,
      List.filter_nil, List.zip_cons_cons, List.zip_nil_right,
      List.zip_nil_left, List.zipWith_cons_cons, List.sum_cons, List.sum_nil,
      List.getElem?_cons_zero, List.getElem?_cons_succ])
    (by norm_num)

end HOGBEN
